import Mathlib

/-!
# socatmanager: registry, liveness sweep and event log

A shallow embedding of `main.go`.  The three HTTP handlers (`handleIndex`,
`handleStart`, `handleStop`) and the two helpers (`addLogEntry`,
`setErrorAndRedirect`) become functions on an explicit `State` holding the
package-level variables `runningProcesses`, `lastError` and `eventLog`.

Everything the handlers obtain from outside the program is an explicit
argument: the result of `net.ParseIP`, of `cmd.Start()`, of `uuid.New()`,
of `time.Now()`, of `os.Stat` and of `Process.Signal`, and the order in which
`range` walks the map.  Everything the handlers do to the outside (taking and
releasing a mutex, starting, signalling, killing and reaping a child, the HTTP
response) is appended to the history field `trace` of the state, in program
order.  Diagnostic `log.Printf` output is not modelled.

Go strings are modelled by `String` (a byte that is not part of a valid UTF-8
sequence has no counterpart; `strconv.Atoi` rejects every byte outside
`'0'..'9'` after the sign, as the model rejects every such character), Go
`int` by `Int` (no arithmetic is performed on it apart from comparisons and
formatting), `time.Time` by `Nat`.  `fmt.Sprintf` with `%s` and `%d` is string
concatenation with `toString` for the integer.

The requests are served one at a time: a handler runs from its first to its
last statement before the next one starts.
-/

namespace SocatManager

/-! ## Data model -/

/-- The struct `LogEntry` (main.go:21-25). -/
structure LogEntry where
  Timestamp : Nat
  EventType : String
  Details : String
deriving DecidableEq, Repr

/-- The part of `os.Process` the program reads: the pid. -/
structure OsProcess where
  Pid : Int
deriving DecidableEq, Repr

/-- The struct `SocatProcess` (main.go:41-49).  `Cmd` is the argument vector of the
`exec.Cmd` (program name first). -/
structure SocatProcess where
  ID : String
  BaseIP : String
  BasePort : String
  RemoteIP : String
  RemotePort : String
  Cmd : List String
  Process : OsProcess
deriving DecidableEq, Repr

/-- The two locks of the program (main.go:29, 35). -/
inductive Mutex where
  | processesMutex
  | logMutex
deriving DecidableEq, Repr

/-- What a handler does to the outside world, in program order. -/
inductive Event where
  | lock (m : Mutex)
  | unlock (m : Mutex)
  | cmdStart (args : List String)
  | signalTerm (pid : Int)
  | kill (pid : Int)
  | wait (pid : Int)
  | redirect (url : String) (code : Nat)
  | httpError (msg : String) (code : Nat)
  | notFound
  | render (processes : List SocatProcess) (eventLog : List LogEntry) (error : String)
deriving DecidableEq, Repr

/-- The map type of `runningProcesses`: `map[string]*SocatProcess`. -/
abbrev Registry := AList (fun _ : String => SocatProcess)

/-- The package-level variables (main.go:27-37) and the history of events. -/
structure State where
  runningProcesses : Registry
  lastError : String
  eventLog : List LogEntry
  trace : List Event

/-- The variable `maxLogEntries` (main.go:36); never assigned after initialisation. -/
def maxLogEntries : Nat := 100

/-- The state at program start. -/
def initState : State :=
  { runningProcesses := ∅, lastError := "", eventLog := [], trace := [] }

/-- Record one event in the history. -/
def emit (e : Event) (s : State) : State :=
  { s with trace := s.trace ++ [e] }

/-! ## Library functions used by the handlers -/

/-- The two error kinds of `strconv.NumError`. -/
inductive NumError where
  | errSyntax
  | errRange
deriving DecidableEq, Repr

/-- The digit loop of `strconv.ParseUint(s, 10, 64)`, characters taken left to
right; the first failing character decides the error: `ErrSyntax` at a
character outside `'0'..'9'`, `ErrRange` at a digit with which the value no
longer fits a `uint64` (the accumulator is at or past the cutoff
`maxUint64/10 + 1`, or the addition wraps around). -/
def digitsValue (cs : List Char) : Except NumError Nat :=
  cs.foldl
    (fun acc c =>
      match acc with
      | .error e => .error e
      | .ok n =>
        if '0' ≤ c ∧ c ≤ '9' then
          if n ≥ 1844674407370955162 then .error .errRange
          else
            let n1 := (n * 10 + (c.toNat - '0'.toNat)) % 2 ^ 64
            if n1 < n * 10 then .error .errRange else .ok n1
        else .error .errSyntax)
    (.ok 0)

/-- Go's `strconv.Atoi` on a 64-bit platform, that is `ParseInt(s, 10, 0)`: an
optional sign `+` or `-` is picked off, the rest goes through the digit loop
of `ParseUint` (an empty rest is `ErrSyntax`), and a value that does not fit an
`int` is `ErrRange`.  The fast path `Atoi` takes on strings shorter than 19
bytes computes the same result. -/
def Atoi (s : String) : Except NumError Int :=
  let (neg, ds) :=
    match s.data with
    | '+' :: r => (false, r)
    | '-' :: r => (true, r)
    | r => (false, r)
  if ds = [] then .error .errSyntax
  else
    match digitsValue ds with
    | .error e => .error e
    | .ok un =>
      if neg = false ∧ un ≥ 2 ^ 63 then .error .errRange
      else if neg = true ∧ un > 2 ^ 63 then .error .errRange
      else .ok (if neg then -(un : Int) else (un : Int))

/-- The error of `cmd.Start()`: `*exec.Error` wrapping `exec.ErrNotFound`, or
anything else, with its `%v` text. -/
inductive StartError where
  | notFound
  | other (text : String)
deriving DecidableEq, Repr

/-- Outcome of `os.Stat`: no error, an error for which `os.IsNotExist` holds,
any other error. -/
inductive StatResult where
  | present
  | notExist
  | otherError
deriving DecidableEq, Repr

/-- The four form values read by `handleStart` (main.go:194-197). -/
structure FormValues where
  baseIP : String
  basePort : String
  remoteIP : String
  remotePort : String
deriving DecidableEq, Repr

/-- The order in which `for _, proc := range runningProcesses` yields the
records.  Go leaves it unspecified; here the entries are sorted by an arbitrary
ranking of the keys, so that every order can occur. -/
def rangeValues (rank : String → Nat) (m : Registry) : List SocatProcess :=
  (m.entries.insertionSort (fun a b => rank a.1 ≤ rank b.1)).map (fun e => e.2)

/-! ## The program -/

/-- The function `addLogEntry` (main.go:75-92). -/
def addLogEntry (now : Nat) (eventType details : String) (s : State) : State :=
  let s := emit (.lock .logMutex) s
  let entry : LogEntry := { Timestamp := now, EventType := eventType, Details := details }
  let eventLog := [entry] ++ s.eventLog
  let eventLog :=
    if eventLog.length > maxLogEntries then eventLog.take maxLogEntries else eventLog
  emit (.unlock .logMutex) { s with eventLog := eventLog }

/-- The function `setErrorAndRedirect` (main.go:345-350). -/
def setErrorAndRedirect (errorMsg : String) (s : State) : State :=
  let s := emit (.lock .processesMutex) s
  let s := { s with lastError := errorMsg }
  let s := emit (.unlock .processesMutex) s
  emit (.redirect "/" 303) s

/-- The text `fmt.Sprintf("PID %d (Base: %s:%s, Remote: %s:%s)", ...)` used
for all three kinds of log entry (main.go:124, 276, 302). -/
def logDetails (pid : Int) (baseIP basePort remoteIP remotePort : String) : String :=
  "PID " ++ toString pid ++ " (Base: " ++ baseIP ++ ":" ++ basePort ++
    ", Remote: " ++ remoteIP ++ ":" ++ remotePort ++ ")"

/-- The handler `handleStart` (main.go:182-282).  `form = none` is a failing
`r.ParseForm()`; `parseIP s` is `net.ParseIP(s) != nil`; `startResult` is the
result of `cmd.Start()` (the pid on success); `uuid` is
`uuid.New().String()`; `now` is `time.Now()`. -/
def handleStart (parseIP : String → Bool) (startResult : Except StartError Int)
    (uuid : String) (now : Nat) (method : String) (form : Option FormValues)
    (s : State) : State :=
  if method ≠ "POST" then emit (.httpError "Method not allowed" 405) s
  else
    match form with
    | none => setErrorAndRedirect "Failed to parse form data." s
    | some f =>
      let baseIP := f.baseIP
      let basePortStr := f.basePort
      let remoteIP := f.remoteIP
      let remotePortStr := f.remotePort
      if parseIP baseIP = false then
        setErrorAndRedirect ("Invalid Base IP address format: " ++ baseIP) s
      else
        match Atoi basePortStr with
        | .error _ =>
          setErrorAndRedirect ("Base Port must be a number: " ++ basePortStr) s
        | .ok basePort =>
          if basePort < 1 ∨ basePort > 65535 then
            setErrorAndRedirect
              ("Base Port must be between 1 and 65535, got: " ++ toString basePort) s
          else if parseIP remoteIP = false then
            setErrorAndRedirect ("Invalid Remote IP address format: " ++ remoteIP) s
          else
            match Atoi remotePortStr with
            | .error _ =>
              setErrorAndRedirect ("Remote Port must be a number: " ++ remotePortStr) s
            | .ok remotePort =>
              if remotePort < 1 ∨ remotePort > 65535 then
                setErrorAndRedirect
                  ("Remote Port must be between 1 and 65535, got: " ++ toString remotePort) s
              else
                let listenAddr :=
                  "tcp4-listen:" ++ basePortStr ++ ",reuseaddr,bind=" ++ baseIP ++ ",fork"
                let remoteAddr := "tcp4:" ++ remoteIP ++ ":" ++ remotePortStr
                let cmd := ["socat", listenAddr, remoteAddr]
                let s := emit (.cmdStart cmd) s
                match startResult with
                | .error .notFound =>
                  setErrorAndRedirect
                    "Failed to start socat: 'socat' command not found in PATH. Please ensure socat is installed."
                    s
                | .error (.other text) =>
                  setErrorAndRedirect
                    ("Failed to start socat (check if address/port is already in use or socat permissions): "
                      ++ text)
                    s
                | .ok pid =>
                  let id := uuid
                  let procInfo : SocatProcess :=
                    { ID := id
                      BaseIP := baseIP
                      BasePort := basePortStr
                      RemoteIP := remoteIP
                      RemotePort := remotePortStr
                      Cmd := cmd
                      Process := { Pid := pid } }
                  let s := emit (.lock .processesMutex) s
                  let s := { s with runningProcesses := s.runningProcesses.insert id procInfo }
                  let s := emit (.unlock .processesMutex) s
                  let details := logDetails pid baseIP basePortStr remoteIP remotePortStr
                  let s := addLogEntry now "Start" details s
                  emit (.redirect "/" 303) s

/-- The handler `handleStop` (main.go:286-342).  `id` is `r.URL.Query().Get("id")`;
`sigtermFails` tells whether `Process.Signal(SIGTERM)` returns an error.  The
results of `Kill` and `Wait` only select diagnostic output. -/
def handleStop (now : Nat) (sigtermFails : Bool) (id : String) (s : State) : State :=
  if id = "" then setErrorAndRedirect "No process ID specified." s
  else
    let s := emit (.lock .processesMutex) s
    match s.runningProcesses.lookup id with
    | none =>
      let s := emit (.unlock .processesMutex) s
      setErrorAndRedirect ("Process with ID " ++ id ++ " not found.") s
    | some procInfo =>
      let details :=
        logDetails procInfo.Process.Pid procInfo.BaseIP procInfo.BasePort
          procInfo.RemoteIP procInfo.RemotePort
      let s := addLogEntry now "Stop" details s
      let s := { s with runningProcesses := s.runningProcesses.erase id }
      let s := emit (.unlock .processesMutex) s
      let s := emit (.signalTerm procInfo.Process.Pid) s
      let s := if sigtermFails then emit (.kill procInfo.Process.Pid) s else s
      let s := emit (.wait procInfo.Process.Pid) s
      emit (.redirect "/" 303) s

/-- The path `filepath.Join("/proc", strconv.Itoa(pid), "cwd")` (main.go:114):
the `cwd` entry inside the directory of the process, which is what the code
hands to `os.Stat`. -/
def procPath (pid : Int) : String :=
  "/proc/" ++ toString pid ++ "/cwd"

/-- The liveness loop of `handleIndex` (main.go:111-134) over the records in
`processesToCheck`, carrying the state and `idsToRemove`.  `now k` is
`time.Now()` at the `k`-th `addLogEntry` call of the request. -/
def checkProcesses (stat : String → StatResult) (now : Nat → Nat) :
    List SocatProcess → State × List String → State × List String
  | [], acc => acc
  | procInfo :: rest, (s, idsToRemove) =>
    match stat (procPath procInfo.Process.Pid) with
    | .notExist =>
      let details :=
        logDetails procInfo.Process.Pid procInfo.BaseIP procInfo.BasePort
          procInfo.RemoteIP procInfo.RemotePort
      let s' := addLogEntry (now idsToRemove.length) "Died" details s
      checkProcesses stat now rest (s', idsToRemove ++ [procInfo.ID])
    | .otherError => checkProcesses stat now rest (s, idsToRemove)
    | .present => checkProcesses stat now rest (s, idsToRemove)

/-- The removal loop of `handleIndex` (main.go:137-141). -/
def removeIds (idsToRemove : List String) (m : Registry) : Registry :=
  idsToRemove.foldl (fun m id => m.erase id) m

/-- The handler `handleIndex` (main.go:96-177).  `path` is `r.URL.Path`; `stat` is
`os.Stat`; `rank1` and `rank2` fix the orders of the two `range` loops.  The
page is the `render` event with the three fields given to the template; a
failing `templates.Execute` only changes the response and is left out. -/
def handleIndex (stat : String → StatResult) (now : Nat → Nat)
    (rank1 rank2 : String → Nat) (path : String) (s : State) : State :=
  if path ≠ "/" then emit .notFound s
  else
    let s := emit (.lock .processesMutex) s
    let processesToCheck := rangeValues rank1 s.runningProcesses
    let (s, idsToRemove) := checkProcesses stat now processesToCheck (s, [])
    let s := { s with runningProcesses := removeIds idsToRemove s.runningProcesses }
    let processesList := rangeValues rank2 s.runningProcesses
    let currentError := s.lastError
    let s := { s with lastError := "" }
    let s := emit (.unlock .processesMutex) s
    let s := emit (.lock .logMutex) s
    let logCopy := s.eventLog
    let s := emit (.unlock .logMutex) s
    emit (.render processesList logCopy currentError) s

/-! ## Derived notions used to state the properties -/

/-- Append the events of `es` one after the other, first element first; each
element carries the kind and details passed to `addLogEntry` and the time the
clock shows at that call. -/
def appendAll (es : List LogEntry) (s : State) : State :=
  es.foldl (fun s e => addLogEntry e.Timestamp e.EventType e.Details s) s

/-- Decimal value of a run of digit characters, most significant first. -/
def decimalValue (ds : List Char) : Nat :=
  Nat.ofDigits 10 (ds.reverse.map (fun c => c.toNat - '0'.toNat))

/-- Every character is one of `'0'..'9'`. -/
def IsDigits (ds : List Char) : Prop :=
  ∀ c ∈ ds, '0' ≤ c ∧ c ≤ '9'

/-- The string `s` is a decimal numeral of the integer `n`: an optional sign
`+` or `-` followed by one or more decimal digits whose value, with that sign,
is `n`.  No bound on `n`. -/
def ParsesAs (s : String) (n : Int) : Prop :=
  ∃ sign ds : List Char, s.data = sign ++ ds ∧ ds ≠ [] ∧ IsDigits ds ∧
    (((sign = [] ∨ sign = ['+']) ∧ n = (decimalValue ds : Int)) ∨
      (sign = ['-'] ∧ n = -(decimalValue ds : Int)))

/-- The port check of `handleStart`, the same for both ports (main.go:208-216
and 225-233): `strconv.Atoi` succeeds and the range test does not reject. -/
def portAccepted (portStr : String) : Bool :=
  match Atoi portStr with
  | .error _ => false
  | .ok port => if port < 1 ∨ port > 65535 then false else true

/-- The message for a bad base IP, `none` when the field passes its check. -/
def baseIPError (parseIP : String → Bool) (f : FormValues) : Option String :=
  if parseIP f.baseIP = false then some ("Invalid Base IP address format: " ++ f.baseIP)
  else none

/-- The message for a bad base port, `none` when the field passes its check. -/
def basePortError (f : FormValues) : Option String :=
  match Atoi f.basePort with
  | .error _ => some ("Base Port must be a number: " ++ f.basePort)
  | .ok n =>
    if n < 1 ∨ n > 65535 then
      some ("Base Port must be between 1 and 65535, got: " ++ toString n)
    else none

/-- The message for a bad remote IP, `none` when the field passes its check. -/
def remoteIPError (parseIP : String → Bool) (f : FormValues) : Option String :=
  if parseIP f.remoteIP = false then
    some ("Invalid Remote IP address format: " ++ f.remoteIP)
  else none

/-- The message for a bad remote port, `none` when the field passes its check. -/
def remotePortError (f : FormValues) : Option String :=
  match Atoi f.remotePort with
  | .error _ => some ("Remote Port must be a number: " ++ f.remotePort)
  | .ok n =>
    if n < 1 ∨ n > 65535 then
      some ("Remote Port must be between 1 and 65535, got: " ++ toString n)
    else none

/-- The four fields' messages, each judged on its own, in the order baseIP,
basePort, remoteIP, remotePort. -/
def fieldErrors (parseIP : String → Bool) (f : FormValues) : List (Option String) :=
  [baseIPError parseIP f, basePortError f, remoteIPError parseIP f, remotePortError f]

/-- The message of the first failing field, `none` when all four pass. -/
def firstFailure (parseIP : String → Bool) (f : FormValues) : Option String :=
  (fieldErrors parseIP f).findSome? id

/-- The events a step from `s` to `s'` added to the history. -/
def newEvents (s s' : State) : List Event :=
  s'.trace.drop s.trace.length

/-- The event is a call of `cmd.Start()`. -/
def isSpawn : Event → Bool
  | .cmdStart _ => true
  | _ => false

/-- The event is a termination attempt: a signal, a kill or a wait. -/
def isTermination : Event → Bool
  | .signalTerm _ => true
  | .kill _ => true
  | .wait _ => true
  | _ => false

/-- The two arguments `handleStart` passes to `socat` (main.go:237-239),
preceded by the program name. -/
def socatArgs (f : FormValues) : List String :=
  ["socat",
   "tcp4-listen:" ++ f.basePort ++ ",reuseaddr,bind=" ++ f.baseIP ++ ",fork",
   "tcp4:" ++ f.remoteIP ++ ":" ++ f.remotePort]

/-- The record `handleStart` builds for identity `id` and pid `pid`
(main.go:260-268). -/
def recordOf (id : String) (f : FormValues) (pid : Int) : SocatProcess :=
  { ID := id
    BaseIP := f.baseIP
    BasePort := f.basePort
    RemoteIP := f.remoteIP
    RemotePort := f.remotePort
    Cmd := socatArgs f
    Process := { Pid := pid } }

/-- The text `handleStart` stores when `cmd.Start()` fails (main.go:246-252). -/
def startErrorMessage : StartError → String
  | .notFound =>
    "Failed to start socat: 'socat' command not found in PATH. Please ensure socat is installed."
  | .other text =>
    "Failed to start socat (check if address/port is already in use or socat permissions): "
      ++ text

/-- Each key of the registry holds the record carrying that key as its `ID`. -/
def KeyedByID (m : Registry) : Prop :=
  ∀ e ∈ m.entries, e.2.ID = e.1

instance (m : Registry) : Decidable (KeyedByID m) :=
  inferInstanceAs (Decidable (∀ e ∈ m.entries, e.2.ID = e.1))

/-- The liveness check of `handleIndex` finds the record dead: `os.Stat` on
its `/proc` path fails with a does-not-exist error. -/
def isDead (stat : String → StatResult) (p : SocatProcess) : Bool :=
  decide (stat (procPath p.Process.Pid) = StatResult.notExist)

/-- The records a sweep finds dead, in the order it checks them. -/
def deadInOrder (stat : String → StatResult) (rank : String → Nat) (s : State) :
    List SocatProcess :=
  (rangeValues rank s.runningProcesses).filter (isDead stat)

/-- The "Died" entries of the records `dead`, the `i`-th stamped `now (k + i)`. -/
def diedEntries (now : Nat → Nat) (k : Nat) (dead : List SocatProcess) : List LogEntry :=
  (dead.enumFrom k).map
    (fun ip =>
      { Timestamp := now ip.1
        EventType := "Died"
        Details := "PID " ++ toString ip.2.Process.Pid ++ " (Base: " ++ ip.2.BaseIP ++ ":"
          ++ ip.2.BasePort ++ ", Remote: " ++ ip.2.RemoteIP ++ ":" ++ ip.2.RemotePort ++ ")" })

/-- The error string of the page a status read rendered last, if the last
event is a rendering. -/
def displayed (s : State) : Option String :=
  match s.trace.getLast? with
  | some (.render _ _ error) => some error
  | _ => none

/-- Scanning the events with the set of locks held: does some acquisition of
`inner` happen while `outer` is held? -/
def acquiresWhileHolding (inner outer : Mutex) : List Mutex → List Event → Bool
  | _, [] => false
  | held, .lock m :: rest =>
    (decide (m = inner) && decide (outer ∈ held))
      || acquiresWhileHolding inner outer (m :: held) rest
  | held, .unlock m :: rest => acquiresWhileHolding inner outer (held.erase m) rest
  | held, _ :: rest => acquiresWhileHolding inner outer held rest

/-- The events of `n` calls of `addLogEntry`. -/
def logLockPairs : Nat → List Event
  | 0 => []
  | n + 1 => Event.lock Mutex.logMutex :: Event.unlock Mutex.logMutex :: logLockPairs n

/-- One request, with everything it obtains from outside. -/
inductive Action where
  | start (parseIP : String → Bool) (startResult : Except StartError Int) (uuid : String)
      (now : Nat) (method : String) (form : Option FormValues)
  | stop (now : Nat) (sigtermFails : Bool) (id : String)
  | index (stat : String → StatResult) (now : Nat → Nat) (rank1 rank2 : String → Nat)
      (path : String)
  | setError (errorMsg : String)

/-- The state after one request. -/
def step (s : State) : Action → State
  | .start parseIP startResult uuid now method form =>
    handleStart parseIP startResult uuid now method form s
  | .stop now sigtermFails id => handleStop now sigtermFails id s
  | .index stat now rank1 rank2 path => handleIndex stat now rank1 rank2 path s
  | .setError errorMsg => setErrorAndRedirect errorMsg s

/-- The state after a sequence of requests, served one after the other. -/
def run (s : State) (actions : List Action) : State :=
  actions.foldl step s

/-! ## Sample inputs -/

/-- A stand-in for `net.ParseIP(s) != nil` that knows two addresses. -/
def sampleParseIP (ip : String) : Bool :=
  decide (ip = "127.0.0.1" ∨ ip = "10.0.0.5")

/-- The submission of the end-to-end scenario. -/
def sampleForm : FormValues :=
  { baseIP := "127.0.0.1", basePort := "9000", remoteIP := "10.0.0.5", remotePort := "22" }

/-- A submission whose base IP and remote port are both bad. -/
def badForm : FormValues :=
  { baseIP := "not-an-ip", basePort := "9000", remoteIP := "10.0.0.5", remotePort := "0" }

/-- A run of 103 log entries, stamped 0 to 102: three more than the cap. -/
def manyEntries : List LogEntry :=
  (List.range 103).map
    (fun i => { Timestamp := i, EventType := "Start", Details := "forward" })

/-- The sample submission with its base port written with leading zeros. -/
def paddedForm : FormValues :=
  { baseIP := "127.0.0.1", basePort := "0080", remoteIP := "10.0.0.5", remotePort := "+22" }

/-- The same endpoints as `paddedForm`, ports in canonical decimal. -/
def canonicalForm : FormValues :=
  { baseIP := "127.0.0.1", basePort := "80", remoteIP := "10.0.0.5", remotePort := "22" }

/-- The state after the sample submission was started as pid 4242 under the
identity "id-1". -/
def startedState : State :=
  handleStart sampleParseIP (.ok 4242) "id-1" 7 "POST" (some sampleForm) initState

/-- The record of the forward tracked in `startedState`. -/
def sampleRecord : SocatProcess :=
  { ID := "id-1", BaseIP := "127.0.0.1", BasePort := "9000", RemoteIP := "10.0.0.5",
    RemotePort := "22", Cmd := socatArgs sampleForm, Process := { Pid := 4242 } }

/-- The state after a second start, pid 4243 under the identity "id-2". -/
def twoStartedState : State :=
  handleStart sampleParseIP (.ok 4243) "id-2" 8 "POST" (some canonicalForm) startedState

/-- An `os.Stat` for which only pid 4242 is gone. -/
def sampleStat (path : String) : StatResult :=
  if path = "/proc/4242/cwd" then .notExist
  else if path = "/proc/4243/cwd" then .present
  else .otherError

/-! ## Elementary facts about the helpers -/

@[simp] theorem emit_runningProcesses (e : Event) (s : State) :
    (emit e s).runningProcesses = s.runningProcesses := rfl

@[simp] theorem emit_lastError (e : Event) (s : State) :
    (emit e s).lastError = s.lastError := rfl

@[simp] theorem emit_eventLog (e : Event) (s : State) :
    (emit e s).eventLog = s.eventLog := rfl

@[simp] theorem emit_trace (e : Event) (s : State) :
    (emit e s).trace = s.trace ++ [e] := rfl

@[simp] theorem addLogEntry_runningProcesses (now : Nat) (k d : String) (s : State) :
    (addLogEntry now k d s).runningProcesses = s.runningProcesses := rfl

@[simp] theorem addLogEntry_lastError (now : Nat) (k d : String) (s : State) :
    (addLogEntry now k d s).lastError = s.lastError := rfl

@[simp] theorem addLogEntry_trace (now : Nat) (k d : String) (s : State) :
    (addLogEntry now k d s).trace
      = s.trace ++ [Event.lock Mutex.logMutex, Event.unlock Mutex.logMutex] := by
  simp [addLogEntry, emit]

/-- The log after one append: the new entry in front, cut to the cap. -/
theorem addLogEntry_eventLog (now : Nat) (k d : String) (s : State) :
    (addLogEntry now k d s).eventLog
      = (({ Timestamp := now, EventType := k, Details := d } : LogEntry) :: s.eventLog).take
          maxLogEntries := by
  simp only [addLogEntry, emit, List.singleton_append]
  split
  · rfl
  · rename_i h
    rw [List.take_of_length_le (Nat.le_of_not_gt h)]

@[simp] theorem setErrorAndRedirect_runningProcesses (msg : String) (s : State) :
    (setErrorAndRedirect msg s).runningProcesses = s.runningProcesses := rfl

@[simp] theorem setErrorAndRedirect_eventLog (msg : String) (s : State) :
    (setErrorAndRedirect msg s).eventLog = s.eventLog := rfl

@[simp] theorem setErrorAndRedirect_lastError (msg : String) (s : State) :
    (setErrorAndRedirect msg s).lastError = msg := rfl

@[simp] theorem setErrorAndRedirect_trace (msg : String) (s : State) :
    (setErrorAndRedirect msg s).trace
      = s.trace ++ [Event.lock Mutex.processesMutex, Event.unlock Mutex.processesMutex,
          Event.redirect "/" 303] := by
  simp [setErrorAndRedirect, emit]

/-! ## The event log -/

theorem take_append_take {α : Type} (n : Nat) (A B : List α) :
    (A ++ B.take n).take n = (A ++ B).take n := by
  rw [List.take_append_eq_append_take, List.take_append_eq_append_take, List.take_take]
  congr 2
  omega

theorem addLogEntry_eventLog_length (now : Nat) (k d : String) (s : State) :
    (addLogEntry now k d s).eventLog.length ≤ maxLogEntries := by
  rw [addLogEntry_eventLog, List.length_take]
  exact Nat.min_le_left _ _

theorem appendAll_cons (e : LogEntry) (es : List LogEntry) (s : State) :
    appendAll (e :: es) s
      = appendAll es (addLogEntry e.Timestamp e.EventType e.Details s) := rfl

@[simp] theorem appendAll_runningProcesses (es : List LogEntry) (s : State) :
    (appendAll es s).runningProcesses = s.runningProcesses := by
  induction es generalizing s with
  | nil => rfl
  | cons e es ih => rw [appendAll_cons, ih]; rfl

@[simp] theorem appendAll_lastError (es : List LogEntry) (s : State) :
    (appendAll es s).lastError = s.lastError := by
  induction es generalizing s with
  | nil => rfl
  | cons e es ih => rw [appendAll_cons, ih]; rfl

/-- Closed form of the log after a run of appends. -/
theorem appendAll_eventLog (es : List LogEntry) (s : State)
    (h : es ≠ [] ∨ s.eventLog.length ≤ maxLogEntries) :
    (appendAll es s).eventLog = (es.reverse ++ s.eventLog).take maxLogEntries := by
  induction es generalizing s with
  | nil =>
    rcases h with h | h
    · exact absurd rfl h
    · simp [appendAll, List.take_of_length_le h]
  | cons e es ih =>
    rw [appendAll_cons, ih _ (Or.inr (addLogEntry_eventLog_length _ _ _ _)),
      addLogEntry_eventLog, take_append_take]
    simp

/-! ## strconv.Atoi against decimal numerals -/

theorem digitsValue_append (ds : List Char) (c : Char) :
    digitsValue (ds ++ [c]) =
      match digitsValue ds with
      | .error e => .error e
      | .ok n =>
        if '0' ≤ c ∧ c ≤ '9' then
          if n ≥ 1844674407370955162 then .error .errRange
          else
            if (n * 10 + (c.toNat - '0'.toNat)) % 2 ^ 64 < n * 10 then .error .errRange
            else .ok ((n * 10 + (c.toNat - '0'.toNat)) % 2 ^ 64)
        else .error .errSyntax := by
  unfold digitsValue
  rw [List.foldl_append]
  simp only [List.foldl_cons, List.foldl_nil]

theorem decimalValue_append (ds : List Char) (c : Char) :
    decimalValue (ds ++ [c]) = decimalValue ds * 10 + (c.toNat - 48) := by
  have h0 : '0'.toNat = 48 := rfl
  simp only [decimalValue, List.reverse_append, List.reverse_cons, List.reverse_nil,
    List.nil_append, List.singleton_append, List.map_cons, Nat.ofDigits_cons, h0]
  omega

theorem digit_toNat_le {c : Char} (hc : '0' ≤ c ∧ c ≤ '9') : c.toNat - 48 ≤ 9 := by
  have h9 : c.toNat ≤ '9'.toNat := hc.2
  have h9' : '9'.toNat = 57 := rfl
  omega

/-- The digit loop succeeds exactly on runs of digits whose value fits a
`uint64`, and then returns that value. -/
theorem digitsValue_eq_ok (ds : List Char) (v : Nat) :
    digitsValue ds = .ok v ↔ IsDigits ds ∧ v = decimalValue ds ∧ v < 2 ^ 64 := by
  have h0 : '0'.toNat = 48 := rfl
  induction ds using List.reverseRecOn generalizing v with
  | nil =>
    simp only [digitsValue, List.foldl_nil, Except.ok.injEq, IsDigits, List.not_mem_nil,
      false_implies, implies_true, true_and, decimalValue, List.reverse_nil, List.map_nil,
      Nat.ofDigits_nil]
    constructor
    · intro h; subst h; exact ⟨rfl, by norm_num⟩
    · rintro ⟨h, -⟩; exact h.symm
  | append_singleton ds c ih =>
    rw [digitsValue_append, decimalValue_append]
    constructor
    · intro h
      cases hd : digitsValue ds with
      | error e => simp [hd] at h
      | ok n =>
        obtain ⟨h1, h2, h3⟩ := (ih n).1 hd
        simp only [hd, h0] at h
        by_cases hc : '0' ≤ c ∧ c ≤ '9'
        · have hd9 := digit_toNat_le hc
          rw [if_pos hc] at h
          by_cases hcut : n ≥ 1844674407370955162
          · rw [if_pos hcut] at h; cases h
          · rw [if_neg hcut] at h
            by_cases hw : (n * 10 + (c.toNat - 48)) % 2 ^ 64 < n * 10
            · rw [if_pos hw] at h; cases h
            · rw [if_neg hw] at h
              injection h with h
              have hlt : n * 10 + (c.toNat - 48) < 2 ^ 64 := by
                norm_num at hw ⊢
                omega
              have hv : v = n * 10 + (c.toNat - 48) := by
                rw [← h, Nat.mod_eq_of_lt hlt]
              refine ⟨?_, ?_, ?_⟩
              · intro x hx
                rcases List.mem_append.1 hx with hx | hx
                · exact h1 x hx
                · simp at hx; subst hx; exact hc
              · rw [hv, h2]
              · rw [hv]; exact hlt
        · rw [if_neg hc] at h; cases h
    · rintro ⟨h1, h2, h3⟩
      have hc : '0' ≤ c ∧ c ≤ '9' := h1 c (by simp)
      have hd9 := digit_toNat_le hc
      have hds : IsDigits ds := fun x hx => h1 x (List.mem_append_left _ hx)
      have hlt : decimalValue ds * 10 + (c.toNat - 48) < 2 ^ 64 := by rw [← h2]; exact h3
      have hsmall : decimalValue ds < 2 ^ 64 := by
        norm_num at hlt ⊢
        omega
      rw [(ih _).2 ⟨hds, rfl, hsmall⟩]
      have hcut : ¬ decimalValue ds ≥ 1844674407370955162 := by
        norm_num at hlt
        omega
      have hw : ¬ (decimalValue ds * 10 + (c.toNat - 48)) % 2 ^ 64 < decimalValue ds * 10 := by
        rw [Nat.mod_eq_of_lt hlt]
        omega
      rw [Nat.mod_eq_of_lt hlt] at hw
      simp only [h0, if_pos hc, if_neg hcut, if_neg hw, Nat.mod_eq_of_lt hlt, h2]

/-- The sign and the digit run `Atoi` splits its argument into. -/
theorem Atoi_split (s : String) :
    ∃ neg ds, (s.data = '+' :: ds ∧ neg = false ∨ s.data = '-' :: ds ∧ neg = true ∨
        s.data = ds ∧ neg = false ∧ (∀ r, ds ≠ '+' :: r) ∧ (∀ r, ds ≠ '-' :: r)) ∧
      Atoi s =
        if ds = [] then .error .errSyntax
        else
          match digitsValue ds with
          | .error e => .error e
          | .ok un =>
            if neg = false ∧ un ≥ 2 ^ 63 then .error .errRange
            else if neg = true ∧ un > 2 ^ 63 then .error .errRange
            else .ok (if neg then -(un : Int) else (un : Int)) := by
  unfold Atoi
  split
  rename_i neg ds heq
  refine ⟨neg, ds, ?_, rfl⟩
  split at heq
  · rename_i r h; cases heq; exact Or.inl ⟨h, rfl⟩
  · rename_i r h; cases heq; exact Or.inr (Or.inl ⟨h, rfl⟩)
  · rename_i r h1 h2; cases heq
    exact Or.inr (Or.inr ⟨rfl, rfl, fun r hr => h1 r hr, fun r hr => h2 r hr⟩)

theorem plus_not_digit : ¬ ('0' ≤ '+' ∧ '+' ≤ '9') := by decide

theorem minus_not_digit : ¬ ('0' ≤ '-' ∧ '-' ≤ '9') := by decide

theorem Atoi_ok_iff (s : String) (n : Int) :
    Atoi s = .ok n ↔ ParsesAs s n ∧ -(2 ^ 63) ≤ n ∧ n < 2 ^ 63 := by
  obtain ⟨neg, ds, hsplit, hA⟩ := Atoi_split s
  rw [hA]
  constructor
  · intro h
    by_cases hds : ds = []
    · simp [hds] at h
    · rw [if_neg hds] at h
      cases hv : digitsValue ds with
      | error e => simp [hv] at h
      | ok un =>
        obtain ⟨hdig, hun, -⟩ := (digitsValue_eq_ok ds un).1 hv
        simp only [hv] at h
        split at h
        · cases h
        · split at h
          · cases h
          · rename_i h1 h2
            injection h with h
            rcases hsplit with ⟨hd, hn⟩ | ⟨hd, hn⟩ | ⟨hd, hn, -, -⟩
            · subst hn
              simp at h h1
              refine ⟨⟨['+'], ds, by simp [hd], hds, hdig, Or.inl ⟨Or.inr rfl, ?_⟩⟩, ?_, ?_⟩
              · rw [← h, hun]
              · omega
              · omega
            · subst hn
              simp at h h2
              refine ⟨⟨['-'], ds, by simp [hd], hds, hdig, Or.inr ⟨rfl, ?_⟩⟩, ?_, ?_⟩
              · rw [← h, hun]
              · omega
              · omega
            · subst hn
              simp at h h1
              refine ⟨⟨[], ds, by simp [hd], hds, hdig, Or.inl ⟨Or.inl rfl, ?_⟩⟩, ?_, ?_⟩
              · rw [← h, hun]
              · omega
              · omega
  · rintro ⟨⟨sign, ds', hdata, hne, hdig, hsign⟩, hlo, hhi⟩
    have key : ds = ds' ∧ (neg = true ↔ sign = ['-']) := by
      rcases hsign with ⟨hs | hs, -⟩ | ⟨hs, -⟩
      · subst hs
        simp only [List.nil_append] at hdata
        obtain ⟨c, r, hcr⟩ := List.exists_cons_of_ne_nil hne
        have hc : '0' ≤ c ∧ c ≤ '9' := hdig c (by simp [hcr])
        rcases hsplit with ⟨hd, hn⟩ | ⟨hd, hn⟩ | ⟨hd, hn, -, -⟩
        · rw [hdata, hcr] at hd
          injection hd with hd1 hd2
          subst hd1
          exact absurd hc plus_not_digit
        · rw [hdata, hcr] at hd
          injection hd with hd1 hd2
          subst hd1
          exact absurd hc minus_not_digit
        · rw [hdata] at hd
          exact ⟨hd.symm, by simp [hn]⟩
      · subst hs
        rcases hsplit with ⟨hd, hn⟩ | ⟨hd, hn⟩ | ⟨hd, hn, h1, -⟩
        · rw [hdata] at hd
          simp at hd
          exact ⟨hd.symm, by simp [hn]⟩
        · rw [hdata] at hd
          simp at hd
        · rw [hdata] at hd
          exact absurd hd.symm (by simpa using h1 ds')
      · subst hs
        rcases hsplit with ⟨hd, hn⟩ | ⟨hd, hn⟩ | ⟨hd, hn, -, h2⟩
        · rw [hdata] at hd
          simp at hd
        · rw [hdata] at hd
          simp at hd
          exact ⟨hd.symm, by simp [hn]⟩
        · rw [hdata] at hd
          exact absurd hd.symm (by simpa using h2 ds')
    obtain ⟨hdd, hneg⟩ := key
    subst hdd
    have hfit : decimalValue ds < 2 ^ 64 := by
      rcases hsign with ⟨-, hn⟩ | ⟨-, hn⟩
      · subst hn
        norm_num at hhi ⊢
        have : decimalValue ds < 9223372036854775808 := by exact_mod_cast hhi
        omega
      · subst hn
        norm_num at hlo ⊢
        have : decimalValue ds ≤ 9223372036854775808 := by exact_mod_cast hlo
        omega
    rw [if_neg hne, (digitsValue_eq_ok ds _).2 ⟨hdig, rfl, hfit⟩]
    simp only
    rcases hsign with ⟨hs, hn⟩ | ⟨hs, hn⟩
    · have hnf : neg = false := by
        rcases hs with hs | hs <;> subst hs <;> simpa using hneg
      subst hnf hn
      have h3 : decimalValue ds < 9223372036854775808 := by
        norm_num at hhi; exact_mod_cast hhi
      simpa using h3
    · have hnt : neg = true := hneg.2 hs
      subst hnt hn
      have h3 : decimalValue ds ≤ 9223372036854775808 := by
        norm_num at hlo; exact_mod_cast hlo
      simpa using h3

/-- The three shapes of a numeral: bare digits, `+` digits, `-` digits. -/
theorem ParsesAs_shape {p : String} {n : Int} (h : ParsesAs p n) :
    ∃ c r, ('0' ≤ c ∧ c ≤ '9') ∧
      ((p.data = c :: r ∧ n = (decimalValue (c :: r) : Int)) ∨
        (p.data = '+' :: c :: r ∧ n = (decimalValue (c :: r) : Int)) ∨
        (p.data = '-' :: c :: r ∧ n = -(decimalValue (c :: r) : Int))) := by
  obtain ⟨sg, ds, hd, hne, hdig, hs⟩ := h
  obtain ⟨c, r, hcr⟩ := List.exists_cons_of_ne_nil hne
  subst hcr
  refine ⟨c, r, hdig c (by simp), ?_⟩
  rcases hs with ⟨hs | hs, hv⟩ | ⟨hs, hv⟩
  · subst hs; exact Or.inl ⟨by simpa using hd, hv⟩
  · subst hs; exact Or.inr (Or.inl ⟨by simpa using hd, hv⟩)
  · subst hs; exact Or.inr (Or.inr ⟨by simpa using hd, hv⟩)

theorem ParsesAs_unique {p : String} {n m : Int} (hn : ParsesAs p n) (hm : ParsesAs p m) :
    n = m := by
  obtain ⟨c1, r1, hc1, h1⟩ := ParsesAs_shape hn
  obtain ⟨c2, r2, hc2, h2⟩ := ParsesAs_shape hm
  have hp1 : c1 ≠ '+' := by rintro rfl; exact plus_not_digit hc1
  have hm1 : c1 ≠ '-' := by rintro rfl; exact minus_not_digit hc1
  have hp2 : c2 ≠ '+' := by rintro rfl; exact plus_not_digit hc2
  have hm2 : c2 ≠ '-' := by rintro rfl; exact minus_not_digit hc2
  have hpm : '+' ≠ '-' := by decide
  rcases h1 with ⟨hd1, hv1⟩ | ⟨hd1, hv1⟩ | ⟨hd1, hv1⟩ <;>
    rcases h2 with ⟨hd2, hv2⟩ | ⟨hd2, hv2⟩ | ⟨hd2, hv2⟩ <;>
    rw [hd1] at hd2 <;>
    simp only [List.cons.injEq] at hd2
  · obtain ⟨e1, e2⟩ := hd2; subst e1 e2; rw [hv1, hv2]
  · exact absurd hd2.1 hp1
  · exact absurd hd2.1 hm1
  · exact absurd hd2.1.symm hp2
  · obtain ⟨-, e1, e2⟩ := hd2; subst e1 e2; rw [hv1, hv2]
  · exact absurd hd2.1 hpm
  · exact absurd hd2.1.symm hm2
  · exact absurd hd2.1.symm hpm
  · obtain ⟨-, e1, e2⟩ := hd2; subst e1 e2; rw [hv1, hv2]

theorem portAccepted_iff_Atoi (p : String) :
    portAccepted p = true ↔ ∃ n, Atoi p = .ok n ∧ 1 ≤ n ∧ n ≤ 65535 := by
  unfold portAccepted
  cases h : Atoi p with
  | error e => simp
  | ok n =>
    simp only [Except.ok.injEq, exists_eq_left']
    split
    · rename_i hn
      simp
      omega
    · rename_i hn
      simp
      omega

/-! ## Validation in handleStart -/

theorem basePortError_eq_none (f : FormValues) :
    basePortError f = none ↔ portAccepted f.basePort = true := by
  unfold basePortError portAccepted
  cases Atoi f.basePort with
  | error e => simp
  | ok n => by_cases hn : n < 1 ∨ n > 65535 <;> simp [hn]

theorem remotePortError_eq_none (f : FormValues) :
    remotePortError f = none ↔ portAccepted f.remotePort = true := by
  unfold remotePortError portAccepted
  cases Atoi f.remotePort with
  | error e => simp
  | ok n => by_cases hn : n < 1 ∨ n > 65535 <;> simp [hn]

/-- All four checks pass exactly when no field has a message. -/
theorem firstFailure_eq_none (parseIP : String → Bool) (f : FormValues) :
    firstFailure parseIP f = none ↔
      parseIP f.baseIP = true ∧ portAccepted f.basePort = true ∧
        parseIP f.remoteIP = true ∧ portAccepted f.remotePort = true := by
  rw [← basePortError_eq_none, ← remotePortError_eq_none]
  simp only [firstFailure, fieldErrors, List.findSome?_eq_none_iff, List.mem_cons,
    List.mem_singleton, id, forall_eq_or_imp, forall_eq, List.not_mem_nil, false_implies,
    implies_true, and_true, baseIPError, remoteIPError]
  by_cases h1 : parseIP f.baseIP = false <;> by_cases h3 : parseIP f.remoteIP = false <;>
    simp_all

/-- With a failing field, `handleStart` is `setErrorAndRedirect` on the first
failing field's message. -/
theorem handleStart_invalid (parseIP : String → Bool) (startResult : Except StartError Int)
    (uuid : String) (now : Nat) (f : FormValues) (s : State) (msg : String)
    (h : firstFailure parseIP f = some msg) :
    handleStart parseIP startResult uuid now "POST" (some f) s = setErrorAndRedirect msg s := by
  simp only [firstFailure, fieldErrors, List.findSome?, id, baseIPError, basePortError,
    remoteIPError, remotePortError] at h
  simp only [handleStart, ne_eq, not_true_eq_false, if_false]
  by_cases h1 : parseIP f.baseIP = false
  · simp only [h1, if_true] at h ⊢
    injection h with h; subst h; rfl
  · simp only [h1, if_false] at h ⊢
    cases h2 : Atoi f.basePort with
    | error e =>
      simp only [h2] at h ⊢
      injection h with h; subst h; rfl
    | ok n =>
      simp only [h2] at h ⊢
      by_cases h2r : n < 1 ∨ n > 65535
      · simp only [h2r, if_true] at h ⊢
        injection h with h; subst h; rfl
      · simp only [h2r, if_false] at h ⊢
        by_cases h3 : parseIP f.remoteIP = false
        · simp only [h3, if_true] at h ⊢
          injection h with h; subst h; rfl
        · simp only [h3, if_false] at h ⊢
          cases h4 : Atoi f.remotePort with
          | error e =>
            simp only [h4] at h ⊢
            injection h with h; subst h; rfl
          | ok m =>
            simp only [h4] at h ⊢
            by_cases h4r : m < 1 ∨ m > 65535
            · simp only [h4r, if_true] at h ⊢
              injection h with h; subst h; rfl
            · simp only [h4r, if_false] at h
              cases h

/-- With all four fields valid, `handleStart` calls `cmd.Start()` and goes on
according to its result. -/
theorem handleStart_valid (parseIP : String → Bool) (startResult : Except StartError Int)
    (uuid : String) (now : Nat) (f : FormValues) (s : State)
    (h : firstFailure parseIP f = none) :
    handleStart parseIP startResult uuid now "POST" (some f) s =
      match startResult with
      | .error e =>
        setErrorAndRedirect (startErrorMessage e) (emit (.cmdStart (socatArgs f)) s)
      | .ok pid =>
        emit (.redirect "/" 303)
          (addLogEntry now "Start"
            (logDetails pid f.baseIP f.basePort f.remoteIP f.remotePort)
            (emit (.unlock .processesMutex)
              { emit (.lock .processesMutex) (emit (.cmdStart (socatArgs f)) s) with
                runningProcesses := s.runningProcesses.insert uuid (recordOf uuid f pid) })) := by
  obtain ⟨h1, h2, h3, h4⟩ := (firstFailure_eq_none parseIP f).1 h
  obtain ⟨n, hn, hn1, hn2⟩ := (portAccepted_iff_Atoi _).1 h2
  obtain ⟨m, hm, hm1, hm2⟩ := (portAccepted_iff_Atoi _).1 h4
  have hnr : ¬ (n < 1 ∨ n > 65535) := by omega
  have hmr : ¬ (m < 1 ∨ m > 65535) := by omega
  simp only [handleStart, ne_eq, not_true_eq_false, if_false, h1, h3, hn, hm, hnr, hmr,
    Bool.true_eq_false]
  cases startResult with
  | error e => cases e <;> rfl
  | ok pid => rfl

theorem newEvents_of_trace {s s' : State} {evs : List Event}
    (h : s'.trace = s.trace ++ evs) : newEvents s s' = evs := by
  simp [newEvents, h]

/-- The events of a start that reaches `cmd.Start()`. -/
theorem handleStart_valid_trace (parseIP : String → Bool)
    (startResult : Except StartError Int) (uuid : String) (now : Nat) (f : FormValues)
    (s : State) (h : firstFailure parseIP f = none) :
    newEvents s (handleStart parseIP startResult uuid now "POST" (some f) s) =
      match startResult with
      | .error _ =>
        [Event.cmdStart (socatArgs f), Event.lock Mutex.processesMutex,
          Event.unlock Mutex.processesMutex, Event.redirect "/" 303]
      | .ok _ =>
        [Event.cmdStart (socatArgs f), Event.lock Mutex.processesMutex,
          Event.unlock Mutex.processesMutex, Event.lock Mutex.logMutex,
          Event.unlock Mutex.logMutex, Event.redirect "/" 303] := by
  rw [handleStart_valid _ _ _ _ _ _ h]
  cases startResult with
  | error e => exact newEvents_of_trace (by simp)
  | ok pid => exact newEvents_of_trace (by simp [emit])

/-- The events of a start that fails validation. -/
theorem handleStart_invalid_trace (parseIP : String → Bool)
    (startResult : Except StartError Int) (uuid : String) (now : Nat) (f : FormValues)
    (s : State) (h : firstFailure parseIP f ≠ none) :
    newEvents s (handleStart parseIP startResult uuid now "POST" (some f) s) =
      [Event.lock Mutex.processesMutex, Event.unlock Mutex.processesMutex,
        Event.redirect "/" 303] := by
  obtain ⟨msg, hmsg⟩ := Option.ne_none_iff_exists'.1 h
  rw [handleStart_invalid _ _ _ _ _ _ _ hmsg]
  exact newEvents_of_trace (by simp)

/-! ## Settled properties: validation, port check, log cap -/

/-- C1: when at least one of the four form values fails its check, `handleStart`
never calls `cmd.Start()`, leaves the registry map and the event log as they
were, and stores in `lastError` the message of the first failing field in the
order baseIP, basePort, remoteIP, remotePort. -/
theorem handleStart_validation_failure (parseIP : String → Bool)
    (startResult : Except StartError Int) (uuid : String) (now : Nat) (f : FormValues)
    (s : State)
    (h : parseIP f.baseIP = false ∨ portAccepted f.basePort = false ∨
      parseIP f.remoteIP = false ∨ portAccepted f.remotePort = false) :
    (∀ e ∈ newEvents s (handleStart parseIP startResult uuid now "POST" (some f) s),
        isSpawn e = false) ∧
      (handleStart parseIP startResult uuid now "POST" (some f) s).runningProcesses
        = s.runningProcesses ∧
      (handleStart parseIP startResult uuid now "POST" (some f) s).eventLog = s.eventLog ∧
      firstFailure parseIP f
        = some (handleStart parseIP startResult uuid now "POST" (some f) s).lastError := by
  have hne : firstFailure parseIP f ≠ none := by
    intro hnone
    obtain ⟨h1, h2, h3, h4⟩ := (firstFailure_eq_none parseIP f).1 hnone
    simp [h1, h2, h3, h4] at h
  obtain ⟨msg, hmsg⟩ := Option.ne_none_iff_exists'.1 hne
  refine ⟨?_, ?_, ?_, ?_⟩
  · rw [handleStart_invalid_trace _ _ _ _ _ _ hne]
    intro e he
    simp only [List.mem_cons, List.mem_singleton, List.not_mem_nil, or_false] at he
    rcases he with he | he | he <;> subst he <;> rfl
  · rw [handleStart_invalid _ _ _ _ _ _ _ hmsg]; rfl
  · rw [handleStart_invalid _ _ _ _ _ _ _ hmsg]; rfl
  · rw [handleStart_invalid _ _ _ _ _ _ _ hmsg, hmsg]; rfl

/-- C1 at a submission with a bad base IP and a bad remote port: the stored
message is the one of the base IP. -/
theorem handleStart_validation_failure_witness :
    (sampleParseIP badForm.baseIP = false ∨ portAccepted badForm.basePort = false ∨
        sampleParseIP badForm.remoteIP = false ∨ portAccepted badForm.remotePort = false) ∧
      fieldErrors sampleParseIP badForm
        = [some "Invalid Base IP address format: not-an-ip", none, none,
            some "Remote Port must be between 1 and 65535, got: 0"] ∧
      firstFailure sampleParseIP badForm = some "Invalid Base IP address format: not-an-ip" ∧
      firstFailure sampleParseIP badForm
        = some (handleStart sampleParseIP (.ok 4242) "id-1" 7 "POST" (some badForm)
            initState).lastError :=
  ⟨by decide, by decide, by decide,
    (handleStart_validation_failure sampleParseIP (.ok 4242) "id-1" 7 badForm initState
      (by decide)).2.2.2⟩

/-- C2: the port check of `handleStart` accepts a string exactly when it is a
decimal numeral of an integer between 1 and 65535; "1" and "65535" pass, "0",
"65536", "-1", the empty string, non-numerals and numerals beyond the range of
`int` fail; and with valid IPs `handleStart` reaches `cmd.Start()` exactly when
both the base port and the remote port pass this same check. -/
theorem port_check_accepts_iff :
    (∀ p : String, portAccepted p = true ↔ ∃ n : Int, ParsesAs p n ∧ 1 ≤ n ∧ n ≤ 65535) ∧
      portAccepted "1" = true ∧ portAccepted "65535" = true ∧
      portAccepted "0" = false ∧ portAccepted "65536" = false ∧
      portAccepted "-1" = false ∧ portAccepted "" = false ∧
      portAccepted "http" = false ∧ portAccepted "80a" = false ∧
      portAccepted "99999999999999999999" = false ∧
      (∀ p : String, (¬ ∃ n : Int, ParsesAs p n) → portAccepted p = false) ∧
      (∀ (p : String) (n : Int), ParsesAs p n → (n < -(2 ^ 63) ∨ 2 ^ 63 ≤ n) →
        portAccepted p = false) ∧
      (∀ (parseIP : String → Bool) (startResult : Except StartError Int) (uuid : String)
          (now : Nat) (f : FormValues) (s : State),
        parseIP f.baseIP = true → parseIP f.remoteIP = true →
          ((∃ e ∈ newEvents s (handleStart parseIP startResult uuid now "POST" (some f) s),
              isSpawn e = true) ↔
            portAccepted f.basePort = true ∧ portAccepted f.remotePort = true)) := by
  have main : ∀ p : String,
      portAccepted p = true ↔ ∃ n : Int, ParsesAs p n ∧ 1 ≤ n ∧ n ≤ 65535 := by
    intro p
    rw [portAccepted_iff_Atoi]
    constructor
    · rintro ⟨n, hn, h1, h2⟩
      exact ⟨n, ((Atoi_ok_iff p n).1 hn).1, h1, h2⟩
    · rintro ⟨n, hn, h1, h2⟩
      refine ⟨n, (Atoi_ok_iff p n).2 ⟨hn, ?_, ?_⟩, h1, h2⟩
      · norm_num; omega
      · norm_num; omega
  refine ⟨main, by decide, by decide, by decide, by decide, by decide, by decide, by decide,
    by decide, by decide, ?_, ?_, ?_⟩
  · intro p hp
    cases hacc : portAccepted p with
    | false => rfl
    | true =>
      obtain ⟨n, hn, -, -⟩ := (main p).1 hacc
      exact absurd ⟨n, hn⟩ hp
  · intro p n hn hrange
    cases hacc : portAccepted p with
    | false => rfl
    | true =>
      obtain ⟨m, hm, h1, h2⟩ := (main p).1 hacc
      have := ParsesAs_unique hn hm
      subst this
      norm_num at hrange
      omega
  · intro parseIP startResult uuid now f s h1 h3
    by_cases hff : firstFailure parseIP f = none
    · have hv := (firstFailure_eq_none parseIP f).1 hff
      rw [handleStart_valid_trace _ _ _ _ _ _ hff]
      constructor
      · intro _; exact ⟨hv.2.1, hv.2.2.2⟩
      · intro _
        refine ⟨Event.cmdStart (socatArgs f), ?_, rfl⟩
        cases startResult <;> simp
    · rw [handleStart_invalid_trace _ _ _ _ _ _ hff]
      constructor
      · rintro ⟨e, he, hsp⟩
        simp only [List.mem_cons, List.mem_singleton, List.not_mem_nil, or_false] at he
        rcases he with he | he | he <;> subst he <;> cases hsp
      · rintro ⟨h2, h4⟩
        exact absurd ((firstFailure_eq_none parseIP f).2 ⟨h1, h2, h3, h4⟩) hff

/-- C4: starting from a log of at most `maxLogEntries` = 100 entries, the log
after appending `es` in order is the first 100 elements of the reversed `es`
followed by the old log; it never holds more than 100 entries; and 100 + k
appends to an empty log leave exactly the 100 newest, newest first. -/
theorem addLogEntry_log_cap (s : State) (es : List LogEntry)
    (h : s.eventLog.length ≤ maxLogEntries) :
    maxLogEntries = 100 ∧
      (appendAll es s).eventLog = (es.reverse ++ s.eventLog).take 100 ∧
      (appendAll es s).eventLog.length ≤ 100 ∧
      (∀ k : Nat, s.eventLog = [] → es.length = 100 + k →
        (appendAll es s).eventLog = (es.drop k).reverse ∧
          (appendAll es s).eventLog.length = 100) := by
  have hlog := appendAll_eventLog es s (Or.inr h)
  have hmax : maxLogEntries = 100 := rfl
  rw [hmax] at hlog
  refine ⟨rfl, hlog, ?_, ?_⟩
  · rw [hlog, List.length_take]; exact Nat.min_le_left _ _
  · intro k hempty hlen
    have h2 : (appendAll es s).eventLog = (es.drop k).reverse := by
      rw [hlog, hempty, List.append_nil, List.take_reverse]
      congr 2
      omega
    refine ⟨h2, ?_⟩
    rw [h2, List.length_reverse, List.length_drop]
    omega

set_option maxRecDepth 100000 in
/-- C4 on 103 appends to the empty log: the cap is reached, exactly 100
entries remain, the newest (stamp 102) first and the oldest kept one (stamp 3)
last; the entries stamped 0, 1 and 2 are gone. -/
theorem addLogEntry_log_cap_witness :
    initState.eventLog.length ≤ maxLogEntries ∧
      manyEntries.length = 100 + 3 ∧
      (appendAll manyEntries initState).eventLog = (manyEntries.drop 3).reverse ∧
      (appendAll manyEntries initState).eventLog.length = 100 ∧
      (appendAll manyEntries initState).eventLog.head?
        = some { Timestamp := 102, EventType := "Start", Details := "forward" } ∧
      (appendAll manyEntries initState).eventLog.getLast?
        = some { Timestamp := 3, EventType := "Start", Details := "forward" } ∧
      (appendAll manyEntries initState).eventLog.map (fun e => e.Timestamp)
        = (List.range 100).map (fun i => 102 - i) :=
  ⟨by decide, by decide,
    ((addLogEntry_log_cap initState manyEntries (by decide)).2.2.2 3 rfl (by decide)).1,
    ((addLogEntry_log_cap initState manyEntries (by decide)).2.2.2 3 rfl (by decide)).2,
    by decide, by decide, by decide⟩

/-! ## Settled properties: a successful start -/

/-- C7: for a submission that passes validation, a start whose spawn succeeds
with pid `pid` and identity `uuid` yields the old registry plus the entry
`uuid -> record(uuid, the four submitted fields, pid)` (exactly one more key
when `uuid` was not a key), puts a "Start" entry with the pid and the four
fields in front of the previous log, cut to the cap, and leaves `lastError`
alone; a start whose spawn fails leaves registry and log alone and only sets
`lastError`. -/
theorem handleStart_success (parseIP : String → Bool) (pid : Int) (uuid : String)
    (now : Nat) (f : FormValues) (s : State)
    (hv : parseIP f.baseIP = true ∧ portAccepted f.basePort = true ∧
      parseIP f.remoteIP = true ∧ portAccepted f.remotePort = true) :
    (handleStart parseIP (.ok pid) uuid now "POST" (some f) s).runningProcesses
        = s.runningProcesses.insert uuid
            { ID := uuid, BaseIP := f.baseIP, BasePort := f.basePort, RemoteIP := f.remoteIP,
              RemotePort := f.remotePort, Cmd := socatArgs f, Process := { Pid := pid } } ∧
      (handleStart parseIP (.ok pid) uuid now "POST" (some f) s).runningProcesses.lookup uuid
        = some
            { ID := uuid, BaseIP := f.baseIP, BasePort := f.basePort, RemoteIP := f.remoteIP,
              RemotePort := f.remotePort, Cmd := socatArgs f, Process := { Pid := pid } } ∧
      (∀ k : String, k ≠ uuid →
        (handleStart parseIP (.ok pid) uuid now "POST" (some f) s).runningProcesses.lookup k
          = s.runningProcesses.lookup k) ∧
      (s.runningProcesses.lookup uuid = none →
        (handleStart parseIP (.ok pid) uuid now "POST" (some f) s).runningProcesses.keys
          = uuid :: s.runningProcesses.keys) ∧
      (handleStart parseIP (.ok pid) uuid now "POST" (some f) s).eventLog
        = (({ Timestamp := now, EventType := "Start",
              Details := "PID " ++ toString pid ++ " (Base: " ++ f.baseIP ++ ":" ++ f.basePort
                ++ ", Remote: " ++ f.remoteIP ++ ":" ++ f.remotePort ++ ")" } : LogEntry)
            :: s.eventLog).take 100 ∧
      (handleStart parseIP (.ok pid) uuid now "POST" (some f) s).lastError = s.lastError ∧
      (∀ e : StartError,
        (handleStart parseIP (.error e) uuid now "POST" (some f) s).runningProcesses
            = s.runningProcesses ∧
          (handleStart parseIP (.error e) uuid now "POST" (some f) s).eventLog = s.eventLog ∧
          (handleStart parseIP (.error e) uuid now "POST" (some f) s).lastError
            = startErrorMessage e) := by
  have hff := (firstFailure_eq_none parseIP f).2 hv
  have hok := handleStart_valid parseIP (.ok pid) uuid now f s hff
  simp only at hok
  have hreg : (handleStart parseIP (.ok pid) uuid now "POST" (some f) s).runningProcesses
      = s.runningProcesses.insert uuid (recordOf uuid f pid) := by
    rw [hok]; rfl
  refine ⟨hreg, ?_, ?_, ?_, ?_, ?_, ?_⟩
  · rw [hreg]; exact AList.lookup_insert _
  · intro k hk
    rw [hreg]; exact AList.lookup_insert_ne hk
  · intro hfresh
    rw [hreg, AList.keys_insert]
    congr 1
    exact List.erase_of_not_mem (fun hmem => (AList.lookup_eq_none.1 hfresh) (AList.mem_keys.2 hmem))
  · rw [hok]
    simp only [emit_eventLog, addLogEntry_eventLog]
    rfl
  · rw [hok]; rfl
  · intro e
    have herr := handleStart_valid parseIP (.error e) uuid now f s hff
    simp only at herr
    rw [herr]
    exact ⟨rfl, rfl, rfl⟩

/-- C7 on the end-to-end scenario: the sample submission, pid 4242. -/
theorem handleStart_success_witness :
    (sampleParseIP sampleForm.baseIP = true ∧ portAccepted sampleForm.basePort = true ∧
        sampleParseIP sampleForm.remoteIP = true ∧ portAccepted sampleForm.remotePort = true) ∧
      (handleStart sampleParseIP (.ok 4242) "id-1" 7 "POST" (some sampleForm)
          initState).runningProcesses.lookup "id-1"
        = some
            { ID := "id-1", BaseIP := "127.0.0.1", BasePort := "9000", RemoteIP := "10.0.0.5",
              RemotePort := "22", Cmd := socatArgs sampleForm, Process := { Pid := 4242 } } ∧
      (handleStart sampleParseIP (.ok 4242) "id-1" 7 "POST" (some sampleForm)
          initState).eventLog
        = [{ Timestamp := 7, EventType := "Start",
             Details := "PID 4242 (Base: 127.0.0.1:9000, Remote: 10.0.0.5:22)" }] :=
  ⟨by decide,
    (handleStart_success sampleParseIP 4242 "id-1" 7 sampleForm initState (by decide)).2.1,
    by decide⟩

/-! ## Settled properties: the stored port strings -/

/-- C8, refuted as stated: the submission with base port "0080" and remote
port "+22" is accepted, both ports parse to the same integers as "80" and "22",
and the record and the `socat` arguments hold "0080" and "+22", not the
canonical "80" and "22" that the submission with canonical ports stores. -/
theorem stored_ports_not_canonical :
    portAccepted "0080" = true ∧ portAccepted "+22" = true ∧
      Atoi "0080" = .ok 80 ∧ Atoi "80" = .ok 80 ∧ Atoi "+22" = .ok 22 ∧ Atoi "22" = .ok 22 ∧
      ((handleStart sampleParseIP (.ok 4242) "id-1" 7 "POST" (some paddedForm)
          initState).runningProcesses.lookup "id-1").map
          (fun r => (r.BasePort, r.RemotePort, r.Cmd))
        = some ("0080", "+22",
            ["socat", "tcp4-listen:0080,reuseaddr,bind=127.0.0.1,fork", "tcp4:10.0.0.5:+22"]) ∧
      ((handleStart sampleParseIP (.ok 4242) "id-1" 7 "POST" (some canonicalForm)
          initState).runningProcesses.lookup "id-1").map
          (fun r => (r.BasePort, r.RemotePort, r.Cmd))
        = some ("80", "22",
            ["socat", "tcp4-listen:80,reuseaddr,bind=127.0.0.1,fork", "tcp4:10.0.0.5:22"]) ∧
      toString (80 : Int) = "80" ∧ "0080" ≠ "80" ∧ toString (22 : Int) = "22" ∧ "+22" ≠ "22" := by
  refine ⟨by decide, by decide, rfl, rfl, rfl, rfl, by decide, by decide, by decide,
    by decide, by decide, by decide⟩

/-- C8, amended: for every submission that passes validation, the `BasePort`
and `RemotePort` of the stored record and the port parts of the two arguments
given to `socat` are the submitted strings, character for character; each of
them is accepted by `strconv.Atoi` with a value between 1 and 65535. -/
theorem handleStart_stores_submitted_ports (parseIP : String → Bool)
    (startResult : Except StartError Int) (pid : Int) (uuid : String) (now : Nat)
    (f : FormValues) (s : State)
    (hv : parseIP f.baseIP = true ∧ portAccepted f.basePort = true ∧
      parseIP f.remoteIP = true ∧ portAccepted f.remotePort = true) :
    (∃ r : SocatProcess,
        (handleStart parseIP (.ok pid) uuid now "POST" (some f) s).runningProcesses.lookup uuid
          = some r ∧
        r.BasePort = f.basePort ∧ r.RemotePort = f.remotePort ∧
        r.Cmd = ["socat",
          "tcp4-listen:" ++ f.basePort ++ ",reuseaddr,bind=" ++ f.baseIP ++ ",fork",
          "tcp4:" ++ f.remoteIP ++ ":" ++ f.remotePort] ∧
        (∃ n : Int, Atoi r.BasePort = .ok n ∧ 1 ≤ n ∧ n ≤ 65535) ∧
        (∃ m : Int, Atoi r.RemotePort = .ok m ∧ 1 ≤ m ∧ m ≤ 65535)) ∧
      Event.cmdStart ["socat",
          "tcp4-listen:" ++ f.basePort ++ ",reuseaddr,bind=" ++ f.baseIP ++ ",fork",
          "tcp4:" ++ f.remoteIP ++ ":" ++ f.remotePort]
        ∈ newEvents s (handleStart parseIP startResult uuid now "POST" (some f) s) := by
  have hff := (firstFailure_eq_none parseIP f).2 hv
  have hok := handleStart_valid parseIP (.ok pid) uuid now f s hff
  simp only at hok
  constructor
  · refine ⟨recordOf uuid f pid, ?_, rfl, rfl, rfl, (portAccepted_iff_Atoi _).1 hv.2.1,
      (portAccepted_iff_Atoi _).1 hv.2.2.2⟩
    rw [hok]
    exact AList.lookup_insert _
  · rw [handleStart_valid_trace _ _ _ _ _ _ hff]
    cases startResult <;> simp [socatArgs]

/-- C8 amended, on the submission with padded ports. -/
theorem handleStart_stores_submitted_ports_witness :
    (sampleParseIP paddedForm.baseIP = true ∧ portAccepted paddedForm.basePort = true ∧
        sampleParseIP paddedForm.remoteIP = true ∧ portAccepted paddedForm.remotePort = true) ∧
      Event.cmdStart ["socat",
          "tcp4-listen:" ++ paddedForm.basePort ++ ",reuseaddr,bind=" ++ paddedForm.baseIP
            ++ ",fork",
          "tcp4:" ++ paddedForm.remoteIP ++ ":" ++ paddedForm.remotePort]
        ∈ newEvents initState
            (handleStart sampleParseIP (.ok 4242) "id-1" 7 "POST" (some paddedForm) initState) :=
  ⟨by decide,
    (handleStart_stores_submitted_ports sampleParseIP (.ok 4242) 4242 "id-1" 7 paddedForm
      initState (by decide)).2⟩

/-! ## handleStop -/

/-- A stop of a tracked identity. -/
theorem handleStop_found (now : Nat) (sigtermFails : Bool) (id : String) (p : SocatProcess)
    (s : State) (hid : id ≠ "") (hp : s.runningProcesses.lookup id = some p) :
    handleStop now sigtermFails id s =
      { runningProcesses := s.runningProcesses.erase id
        lastError := s.lastError
        eventLog :=
          (({ Timestamp := now, EventType := "Stop",
              Details := logDetails p.Process.Pid p.BaseIP p.BasePort p.RemoteIP p.RemotePort }
              : LogEntry) :: s.eventLog).take maxLogEntries
        trace := s.trace ++
          ([Event.lock Mutex.processesMutex, Event.lock Mutex.logMutex,
            Event.unlock Mutex.logMutex, Event.unlock Mutex.processesMutex,
            Event.signalTerm p.Process.Pid] ++
            (if sigtermFails then [Event.kill p.Process.Pid] else []) ++
            [Event.wait p.Process.Pid, Event.redirect "/" 303]) } := by
  have hlog := addLogEntry_eventLog now "Stop"
    (logDetails p.Process.Pid p.BaseIP p.BasePort p.RemoteIP p.RemotePort)
    (emit (.lock .processesMutex) s)
  simp only [emit_eventLog] at hlog
  simp only [handleStop, if_neg hid, emit_runningProcesses, hp]
  cases sigtermFails <;>
    simp [emit, addLogEntry_trace, addLogEntry_runningProcesses, addLogEntry_lastError] <;>
    exact hlog

/-- A stop of an identity that is not tracked. -/
theorem handleStop_missing (now : Nat) (sigtermFails : Bool) (id : String) (s : State)
    (hp : s.runningProcesses.lookup id = none) :
    (handleStop now sigtermFails id s).runningProcesses = s.runningProcesses ∧
      (handleStop now sigtermFails id s).eventLog = s.eventLog ∧
      (handleStop now sigtermFails id s).lastError
        = (if id = "" then "No process ID specified."
            else "Process with ID " ++ id ++ " not found.") ∧
      newEvents s (handleStop now sigtermFails id s)
        = (if id = "" then
            [Event.lock Mutex.processesMutex, Event.unlock Mutex.processesMutex,
              Event.redirect "/" 303]
          else
            [Event.lock Mutex.processesMutex, Event.unlock Mutex.processesMutex,
              Event.lock Mutex.processesMutex, Event.unlock Mutex.processesMutex,
              Event.redirect "/" 303]) := by
  by_cases hid : id = ""
  · simp only [handleStop, if_pos hid]
    exact ⟨rfl, rfl, rfl, newEvents_of_trace (by simp)⟩
  · simp only [handleStop, if_neg hid, emit_runningProcesses, hp]
    exact ⟨rfl, rfl, rfl, newEvents_of_trace (by simp)⟩

/-- A stop of an untracked identity makes no termination attempt and no spawn. -/
theorem handleStop_missing_quiet (now : Nat) (sigtermFails : Bool) (id : String) (s : State)
    (hp : s.runningProcesses.lookup id = none) :
    ∀ e ∈ newEvents s (handleStop now sigtermFails id s),
      isTermination e = false ∧ isSpawn e = false := by
  rw [(handleStop_missing now sigtermFails id s hp).2.2.2]
  intro e he
  by_cases hid : id = ""
  · rw [if_pos hid] at he
    simp only [List.mem_cons, List.mem_singleton, List.not_mem_nil, or_false] at he
    rcases he with he | he | he <;> subst he <;> exact ⟨rfl, rfl⟩
  · rw [if_neg hid] at he
    simp only [List.mem_cons, List.mem_singleton, List.not_mem_nil, or_false] at he
    rcases he with he | he | he | he | he <;> subst he <;> exact ⟨rfl, rfl⟩

/-! ## Settled properties: stop idempotence -/

/-- C3: for a tracked identity `id` (identities are the non-empty strings made
by `uuid.New().String()`), a first `handleStop` removes exactly that record,
appends one "Stop" entry and attempts termination; a second `handleStop` right
after makes no termination attempt, leaves registry and log as the first call
left them and sets `lastError` to "Process with ID <id> not found."; and
`handleStop` on any identity that is not tracked changes neither the registry
nor the log and attempts no termination. -/
theorem handleStop_idempotent (now1 now2 : Nat) (sf1 sf2 : Bool) (id : String)
    (p : SocatProcess) (s : State) (hid : id ≠ "")
    (hp : s.runningProcesses.lookup id = some p) :
    ((handleStop now1 sf1 id s).runningProcesses = s.runningProcesses.erase id ∧
        (∀ k : String, (handleStop now1 sf1 id s).runningProcesses.lookup k
          = if k = id then none else s.runningProcesses.lookup k) ∧
        (handleStop now1 sf1 id s).eventLog
          = (({ Timestamp := now1, EventType := "Stop",
                Details := "PID " ++ toString p.Process.Pid ++ " (Base: " ++ p.BaseIP ++ ":"
                  ++ p.BasePort ++ ", Remote: " ++ p.RemoteIP ++ ":" ++ p.RemotePort ++ ")" }
                : LogEntry) :: s.eventLog).take 100 ∧
        (handleStop now1 sf1 id s).lastError = s.lastError ∧
        Event.signalTerm p.Process.Pid ∈ newEvents s (handleStop now1 sf1 id s) ∧
        Event.wait p.Process.Pid ∈ newEvents s (handleStop now1 sf1 id s)) ∧
      ((∀ e ∈ newEvents (handleStop now1 sf1 id s)
            (handleStop now2 sf2 id (handleStop now1 sf1 id s)),
          isTermination e = false) ∧
        (handleStop now2 sf2 id (handleStop now1 sf1 id s)).runningProcesses
          = (handleStop now1 sf1 id s).runningProcesses ∧
        (handleStop now2 sf2 id (handleStop now1 sf1 id s)).eventLog
          = (handleStop now1 sf1 id s).eventLog ∧
        (handleStop now2 sf2 id (handleStop now1 sf1 id s)).lastError
          = "Process with ID " ++ id ++ " not found.") ∧
      (∀ (now : Nat) (sf : Bool) (id' : String) (t : State),
        t.runningProcesses.lookup id' = none →
          (handleStop now sf id' t).runningProcesses = t.runningProcesses ∧
            (handleStop now sf id' t).eventLog = t.eventLog ∧
            (∀ e ∈ newEvents t (handleStop now sf id' t),
              isTermination e = false ∧ isSpawn e = false)) := by
  have h1 := handleStop_found now1 sf1 id p s hid hp
  have hgone : (handleStop now1 sf1 id s).runningProcesses.lookup id = none := by
    rw [h1]; exact AList.lookup_erase id _
  have h2 := handleStop_missing now2 sf2 id (handleStop now1 sf1 id s) hgone
  refine ⟨⟨?_, ?_, ?_, ?_, ?_, ?_⟩, ⟨?_, h2.1, h2.2.1, ?_⟩, ?_⟩
  · rw [h1]
  · intro k
    rw [h1]
    by_cases hk : k = id
    · rw [if_pos hk, hk]; exact AList.lookup_erase id _
    · rw [if_neg hk]; exact AList.lookup_erase_ne hk
  · rw [h1]; rfl
  · rw [h1]
  · rw [newEvents_of_trace (congrArg State.trace h1)]
    simp
  · rw [newEvents_of_trace (congrArg State.trace h1)]
    simp
  · intro e he
    exact (handleStop_missing_quiet now2 sf2 id _ hgone e he).1
  · rw [h2.2.2.1, if_neg hid]
  · intro now sf id' t ht
    have h3 := handleStop_missing now sf id' t ht
    exact ⟨h3.1, h3.2.1, handleStop_missing_quiet now sf id' t ht⟩

/-- C3 on the end-to-end scenario: the forward started as "id-1" is stopped
twice. -/
theorem handleStop_idempotent_witness :
    ("id-1" ≠ "" ∧
        startedState.runningProcesses.lookup "id-1" = some sampleRecord) ∧
      (handleStop 9 false "id-1" startedState).runningProcesses.keys = [] ∧
      (handleStop 9 false "id-1" startedState).eventLog
        = [{ Timestamp := 9, EventType := "Stop",
             Details := "PID 4242 (Base: 127.0.0.1:9000, Remote: 10.0.0.5:22)" },
           { Timestamp := 7, EventType := "Start",
             Details := "PID 4242 (Base: 127.0.0.1:9000, Remote: 10.0.0.5:22)" }] ∧
      (handleStop 10 false "id-1" (handleStop 9 false "id-1" startedState)).eventLog
          = (handleStop 9 false "id-1" startedState).eventLog ∧
      (handleStop 10 false "id-1" (handleStop 9 false "id-1" startedState)).lastError
          = "Process with ID " ++ "id-1" ++ " not found." :=
  ⟨⟨by decide, by decide⟩, by decide, by decide,
    (handleStop_idempotent 9 10 false false "id-1" sampleRecord startedState (by decide)
      (by decide)).2.1.2.2.1,
    (handleStop_idempotent 9 10 false false "id-1" sampleRecord startedState (by decide)
      (by decide)).2.1.2.2.2⟩

/-! ## The liveness sweep -/

theorem appendAll_trace (es : List LogEntry) (s : State) :
    (appendAll es s).trace = s.trace ++ logLockPairs es.length := by
  induction es generalizing s with
  | nil => simp [appendAll, logLockPairs]
  | cons e es ih =>
    rw [appendAll_cons, ih, addLogEntry_trace]
    simp [logLockPairs]

theorem appendAll_eventLog_congr (es : List LogEntry) (s t : State)
    (h : s.eventLog = t.eventLog) : (appendAll es s).eventLog = (appendAll es t).eventLog := by
  induction es generalizing s t with
  | nil => exact h
  | cons e es ih =>
    rw [appendAll_cons, appendAll_cons]
    apply ih
    rw [addLogEntry_eventLog, addLogEntry_eventLog, h]

@[simp] theorem diedEntries_length (now : Nat → Nat) (k : Nat) (dead : List SocatProcess) :
    (diedEntries now k dead).length = dead.length := by
  simp [diedEntries]

/-- The liveness loop appends one "Died" entry per dead record, in checking
order, and collects their `ID`s. -/
theorem checkProcesses_eq (stat : String → StatResult) (now : Nat → Nat)
    (ps : List SocatProcess) (s : State) (ids : List String) :
    checkProcesses stat now ps (s, ids)
      = (appendAll (diedEntries now ids.length (ps.filter (isDead stat))) s,
          ids ++ (ps.filter (isDead stat)).map (fun p => p.ID)) := by
  induction ps generalizing s ids with
  | nil => simp [checkProcesses, diedEntries, appendAll]
  | cons p ps ih =>
    cases hst : stat (procPath p.Process.Pid) with
    | notExist =>
      have hd : isDead stat p = true := by simp [isDead, hst]
      simp only [checkProcesses, hst, ih, List.filter_cons, hd, if_true, List.map_cons,
        List.length_append, List.length_singleton, List.append_assoc, List.singleton_append]
      rfl
    | present =>
      have hd : isDead stat p = false := by simp [isDead, hst]
      simp only [checkProcesses, hst, ih, List.filter_cons, hd]
      rfl
    | otherError =>
      have hd : isDead stat p = false := by simp [isDead, hst]
      simp only [checkProcesses, hst, ih, List.filter_cons, hd]
      rfl

/-- The removal loop deletes exactly the listed keys. -/
theorem removeIds_lookup (ids : List String) (m : Registry) (k : String) :
    (removeIds ids m).lookup k = if k ∈ ids then none else m.lookup k := by
  induction ids generalizing m with
  | nil => simp [removeIds]
  | cons id ids ih =>
    have hstep : removeIds (id :: ids) m = removeIds ids (m.erase id) := rfl
    rw [hstep, ih]
    by_cases h1 : k ∈ ids
    · simp [h1]
    · by_cases h2 : k = id
      · subst h2; simp [h1, AList.lookup_erase]
      · simp [h1, h2, AList.lookup_erase_ne h2]

theorem handleIndex_runningProcesses (stat : String → StatResult) (now : Nat → Nat)
    (rank1 rank2 : String → Nat) (s : State) :
    (handleIndex stat now rank1 rank2 "/" s).runningProcesses
      = removeIds ((deadInOrder stat rank1 s).map (fun p => p.ID)) s.runningProcesses := by
  simp [handleIndex, checkProcesses_eq, deadInOrder]

theorem handleIndex_eventLog (stat : String → StatResult) (now : Nat → Nat)
    (rank1 rank2 : String → Nat) (s : State) :
    (handleIndex stat now rank1 rank2 "/" s).eventLog
      = (appendAll (diedEntries now 0 (deadInOrder stat rank1 s)) s).eventLog := by
  simp only [handleIndex, checkProcesses_eq, deadInOrder, ne_eq, not_true_eq_false, if_false,
    emit_eventLog, emit_runningProcesses, List.length_nil]
  exact appendAll_eventLog_congr _ _ _ rfl

theorem handleIndex_lastError (stat : String → StatResult) (now : Nat → Nat)
    (rank1 rank2 : String → Nat) (s : State) :
    (handleIndex stat now rank1 rank2 "/" s).lastError = "" := by
  simp [handleIndex, checkProcesses_eq]

theorem handleIndex_trace (stat : String → StatResult) (now : Nat → Nat)
    (rank1 rank2 : String → Nat) (s : State) :
    (handleIndex stat now rank1 rank2 "/" s).trace
      = s.trace ++
        (Event.lock Mutex.processesMutex :: logLockPairs (deadInOrder stat rank1 s).length ++
          [Event.unlock Mutex.processesMutex, Event.lock Mutex.logMutex,
            Event.unlock Mutex.logMutex,
            Event.render
              (rangeValues rank2 (handleIndex stat now rank1 rank2 "/" s).runningProcesses)
              (handleIndex stat now rank1 rank2 "/" s).eventLog s.lastError]) := by
  rw [handleIndex_runningProcesses, handleIndex_eventLog]
  simp only [handleIndex, checkProcesses_eq, deadInOrder, ne_eq, not_true_eq_false, if_false,
    emit_eventLog, emit_runningProcesses, emit_trace, emit_lastError, List.length_nil,
    appendAll_trace, appendAll_runningProcesses, appendAll_lastError, diedEntries_length,
    List.nil_append, List.append_assoc, List.cons_append, List.singleton_append]
  rw [appendAll_eventLog_congr _ (emit (Event.lock Mutex.processesMutex) s) s rfl]

theorem keyedByID_iff (m : Registry) :
    KeyedByID m ↔ ∀ k p, m.lookup k = some p → p.ID = k := by
  constructor
  · intro h k p hkp
    exact h ⟨k, p⟩ (AList.mem_lookup_iff.1 hkp)
  · intro h e he
    exact h e.1 e.2 (AList.mem_lookup_iff.2 he)

theorem mem_rangeValues (rank : String → Nat) (m : Registry) (p : SocatProcess) :
    p ∈ rangeValues rank m ↔ ∃ k, m.lookup k = some p := by
  simp only [rangeValues, List.mem_map, List.mem_insertionSort]
  constructor
  · rintro ⟨e, he, rfl⟩
    exact ⟨e.1, AList.mem_lookup_iff.2 he⟩
  · rintro ⟨k, hk⟩
    exact ⟨⟨k, p⟩, AList.mem_lookup_iff.1 hk, rfl⟩

theorem rangeValues_perm (rank : String → Nat) (m : Registry) :
    (rangeValues rank m).Perm (m.entries.map (fun e => e.2)) :=
  (List.perm_insertionSort _ _).map _

/-- In a registry keyed by `ID`, the sweep drops a key exactly when the record
it holds was found dead. -/
theorem sweep_lookup (stat : String → StatResult) (now : Nat → Nat)
    (rank1 rank2 : String → Nat) (s : State) (hkey : KeyedByID s.runningProcesses)
    (k : String) :
    (handleIndex stat now rank1 rank2 "/" s).runningProcesses.lookup k
      = (s.runningProcesses.lookup k).filter
          (fun p => decide (stat (procPath p.Process.Pid) ≠ StatResult.notExist)) := by
  have hk := (keyedByID_iff _).1 hkey
  rw [handleIndex_runningProcesses, removeIds_lookup]
  have hmem : k ∈ (deadInOrder stat rank1 s).map (fun p => p.ID) ↔
      ∃ p, s.runningProcesses.lookup k = some p ∧ isDead stat p = true := by
    simp only [deadInOrder, List.mem_map, List.mem_filter, mem_rangeValues]
    constructor
    · rintro ⟨p, ⟨⟨k', hk'⟩, hd⟩, rfl⟩
      have := hk k' p hk'
      rw [this]
      exact ⟨p, hk', hd⟩
    · rintro ⟨p, hp, hd⟩
      exact ⟨p, ⟨⟨k, hp⟩, hd⟩, hk k p hp⟩
  cases hl : s.runningProcesses.lookup k with
  | none =>
    have : ¬ k ∈ (deadInOrder stat rank1 s).map (fun p => p.ID) := by
      rw [hmem]; rintro ⟨p, hp, -⟩; rw [hl] at hp; cases hp
    simp [this]
  | some p =>
    by_cases hd : isDead stat p = true
    · have : k ∈ (deadInOrder stat rank1 s).map (fun p => p.ID) := hmem.2 ⟨p, hl, hd⟩
      have hst : stat (procPath p.Process.Pid) = StatResult.notExist := by
        simpa [isDead] using hd
      simp [this, Option.filter, hst]
    · have : ¬ k ∈ (deadInOrder stat rank1 s).map (fun p => p.ID) := by
        rw [hmem]; rintro ⟨q, hq, hqd⟩
        rw [hl] at hq; injection hq with hq; subst hq; exact hd hqd
      have hst : ¬ stat (procPath p.Process.Pid) = StatResult.notExist := by
        simpa [isDead] using hd
      simp [this, Option.filter, hst]

/-! ## Settled properties: the liveness sweep -/

/-- C5: in a registry whose keys are the `ID`s of their records, and for every
outcome `stat` of the `/proc` checks, the sweep of `handleIndex` keeps exactly
the records whose check was present or another error, each unchanged, removes
every record whose check was does-not-exist, and appends one "Died" entry per
removed record, with that record's pid and endpoints, in checking order, and
no other entry. -/
theorem sweep_removes_dead (stat : String → StatResult) (now : Nat → Nat)
    (rank1 rank2 : String → Nat) (s : State) (hkey : KeyedByID s.runningProcesses) :
    (∀ k : String,
        (handleIndex stat now rank1 rank2 "/" s).runningProcesses.lookup k
          = (s.runningProcesses.lookup k).filter
              (fun p => decide (stat (procPath p.Process.Pid) ≠ StatResult.notExist))) ∧
      (deadInOrder stat rank1 s).Perm
        ((s.runningProcesses.entries.map (fun e => e.2)).filter
          (fun p => decide (stat (procPath p.Process.Pid) = StatResult.notExist))) ∧
      (handleIndex stat now rank1 rank2 "/" s).eventLog
        = (appendAll (diedEntries now 0 (deadInOrder stat rank1 s)) s).eventLog ∧
      (handleIndex stat now rank1 rank2 "/" s).eventLog
        = (if deadInOrder stat rank1 s = [] then s.eventLog
            else ((diedEntries now 0 (deadInOrder stat rank1 s)).reverse ++ s.eventLog).take
              100) ∧
      (diedEntries now 0 (deadInOrder stat rank1 s)).map (fun e => (e.EventType, e.Details))
        = (deadInOrder stat rank1 s).map
            (fun p =>
              ("Died",
                "PID " ++ toString p.Process.Pid ++ " (Base: " ++ p.BaseIP ++ ":" ++ p.BasePort
                  ++ ", Remote: " ++ p.RemoteIP ++ ":" ++ p.RemotePort ++ ")")) := by
  refine ⟨sweep_lookup stat now rank1 rank2 s hkey, ?_, handleIndex_eventLog _ _ _ _ _, ?_, ?_⟩
  · exact (rangeValues_perm rank1 s.runningProcesses).filter _
  · rw [handleIndex_eventLog]
    by_cases hd : deadInOrder stat rank1 s = []
    · rw [if_pos hd, hd]; rfl
    · rw [if_neg hd]
      refine appendAll_eventLog _ _ (Or.inl ?_)
      intro hnil
      apply hd
      have := congrArg List.length hnil
      simpa using this
  · generalize deadInOrder stat rank1 s = dead
    have : ∀ k, (diedEntries now k dead).map (fun e => (e.EventType, e.Details))
        = dead.map
            (fun p =>
              ("Died",
                "PID " ++ toString p.Process.Pid ++ " (Base: " ++ p.BaseIP ++ ":" ++ p.BasePort
                  ++ ", Remote: " ++ p.RemoteIP ++ ":" ++ p.RemotePort ++ ")")) := by
      induction dead with
      | nil => intro k; rfl
      | cons p dead ih =>
        intro k
        have := ih (k + 1)
        simp only [diedEntries, List.enumFrom_cons, List.map_cons] at this ⊢
        rw [this]
    exact this 0

/-- C5 on a registry of two forwards of which pid 4242 is gone and pid 4243
is alive. -/
theorem sweep_removes_dead_witness :
    KeyedByID twoStartedState.runningProcesses ∧
      (handleIndex sampleStat (fun k => 20 + k) (fun _ => 0) (fun _ => 0) "/"
          twoStartedState).runningProcesses.keys = ["id-2"] ∧
      (handleIndex sampleStat (fun k => 20 + k) (fun _ => 0) (fun _ => 0) "/"
          twoStartedState).eventLog
        = (appendAll
            (diedEntries (fun k => 20 + k) 0
              (deadInOrder sampleStat (fun _ => 0) twoStartedState))
            twoStartedState).eventLog ∧
      ((handleIndex sampleStat (fun k => 20 + k) (fun _ => 0) (fun _ => 0) "/"
          twoStartedState).eventLog.map (fun e => (e.EventType, e.Details))).head?
        = some ("Died", "PID 4242 (Base: 127.0.0.1:9000, Remote: 10.0.0.5:22)") :=
  ⟨by decide, by decide,
    (sweep_removes_dead sampleStat (fun k => 20 + k) (fun _ => 0) (fun _ => 0)
      twoStartedState (by decide)).2.2.1,
    by decide⟩

/-! ## Settled properties: the pending error -/

/-- A status read shows the pending error of the state it starts from. -/
theorem displayed_handleIndex (stat : String → StatResult) (now : Nat → Nat)
    (rank1 rank2 : String → Nat) (s : State) :
    displayed (handleIndex stat now rank1 rank2 "/" s) = some s.lastError := by
  have h : (handleIndex stat now rank1 rank2 "/" s).trace
      = (s.trace ++
          (Event.lock Mutex.processesMutex :: logLockPairs (deadInOrder stat rank1 s).length ++
            [Event.unlock Mutex.processesMutex, Event.lock Mutex.logMutex,
              Event.unlock Mutex.logMutex])) ++
        [Event.render
          (rangeValues rank2 (handleIndex stat now rank1 rank2 "/" s).runningProcesses)
          (handleIndex stat now rank1 rank2 "/" s).eventLog s.lastError] := by
    rw [handleIndex_trace]; simp
  unfold displayed
  rw [h, List.getLast?_concat]

/-- C6: after `setErrorAndRedirect msg`, the next status read on "/" displays
exactly `msg` and empties `lastError`; a second status read right after
displays the empty string; and of two errors set before a read only the later
is displayed. -/
theorem error_single_delivery (s : State) (msg : String)
    (stat1 stat2 : String → StatResult) (now1 now2 : Nat → Nat)
    (rank1 rank2 rank3 rank4 : String → Nat) :
    displayed (handleIndex stat1 now1 rank1 rank2 "/" (setErrorAndRedirect msg s)) = some msg ∧
      (handleIndex stat1 now1 rank1 rank2 "/" (setErrorAndRedirect msg s)).lastError = "" ∧
      displayed
          (handleIndex stat2 now2 rank3 rank4 "/"
            (handleIndex stat1 now1 rank1 rank2 "/" (setErrorAndRedirect msg s)))
        = some "" ∧
      (∀ earlier : String,
        displayed
            (handleIndex stat1 now1 rank1 rank2 "/"
              (setErrorAndRedirect msg (setErrorAndRedirect earlier s)))
          = some msg) := by
  refine ⟨?_, handleIndex_lastError _ _ _ _ _, ?_, ?_⟩
  · rw [displayed_handleIndex]; rfl
  · rw [displayed_handleIndex, handleIndex_lastError]
  · intro earlier
    rw [displayed_handleIndex]; rfl

/-! ## Every path of the handlers -/

/-- The four ways `handleStart` can end: method refused, an error stored
before any spawn, an error stored after a failed spawn, a forward started. -/
theorem handleStart_cases (parseIP : String → Bool) (startResult : Except StartError Int)
    (uuid : String) (now : Nat) (method : String) (form : Option FormValues) (s : State) :
    handleStart parseIP startResult uuid now method form s
        = emit (.httpError "Method not allowed" 405) s ∨
      (∃ msg, handleStart parseIP startResult uuid now method form s
        = setErrorAndRedirect msg s) ∨
      (∃ f e, handleStart parseIP startResult uuid now method form s
        = setErrorAndRedirect (startErrorMessage e) (emit (.cmdStart (socatArgs f)) s)) ∨
      (∃ f pid, form = some f ∧ startResult = .ok pid ∧
        handleStart parseIP startResult uuid now method form s
          = emit (.redirect "/" 303)
              (addLogEntry now "Start"
                (logDetails pid f.baseIP f.basePort f.remoteIP f.remotePort)
                (emit (.unlock .processesMutex)
                  { emit (.lock .processesMutex) (emit (.cmdStart (socatArgs f)) s) with
                    runningProcesses :=
                      s.runningProcesses.insert uuid (recordOf uuid f pid) }))) := by
  by_cases hm : method = "POST"
  · subst hm
    cases form with
    | none => exact Or.inr (Or.inl ⟨_, rfl⟩)
    | some f =>
      cases hff : firstFailure parseIP f with
      | some msg => exact Or.inr (Or.inl ⟨msg, handleStart_invalid _ _ _ _ _ _ _ hff⟩)
      | none =>
        have hv := handleStart_valid parseIP startResult uuid now f s hff
        cases startResult with
        | error e => exact Or.inr (Or.inr (Or.inl ⟨f, e, hv⟩))
        | ok pid => exact Or.inr (Or.inr (Or.inr ⟨f, pid, rfl, rfl, hv⟩))
  · left
    simp [handleStart, hm]

/-- The events of `handleStart`, on every path. -/
theorem handleStart_newEvents (parseIP : String → Bool)
    (startResult : Except StartError Int) (uuid : String) (now : Nat) (method : String)
    (form : Option FormValues) (s : State) :
    newEvents s (handleStart parseIP startResult uuid now method form s)
        = [Event.httpError "Method not allowed" 405] ∨
      newEvents s (handleStart parseIP startResult uuid now method form s)
        = [Event.lock Mutex.processesMutex, Event.unlock Mutex.processesMutex,
            Event.redirect "/" 303] ∨
      (∃ args, newEvents s (handleStart parseIP startResult uuid now method form s)
        = [Event.cmdStart args, Event.lock Mutex.processesMutex,
            Event.unlock Mutex.processesMutex, Event.redirect "/" 303]) ∨
      (∃ args, newEvents s (handleStart parseIP startResult uuid now method form s)
        = [Event.cmdStart args, Event.lock Mutex.processesMutex,
            Event.unlock Mutex.processesMutex, Event.lock Mutex.logMutex,
            Event.unlock Mutex.logMutex, Event.redirect "/" 303]) := by
  rcases handleStart_cases parseIP startResult uuid now method form s with
    h | ⟨msg, h⟩ | ⟨f, e, h⟩ | ⟨f, pid, -, -, h⟩
  · exact Or.inl (newEvents_of_trace (by rw [h]; simp))
  · exact Or.inr (Or.inl (newEvents_of_trace (by rw [h]; simp)))
  · exact Or.inr (Or.inr (Or.inl ⟨socatArgs f, newEvents_of_trace (by rw [h]; simp)⟩))
  · exact Or.inr (Or.inr (Or.inr ⟨socatArgs f, newEvents_of_trace (by rw [h]; simp [emit])⟩))

/-- The events of `handleStop`, on every path. -/
theorem handleStop_newEvents (now : Nat) (sigtermFails : Bool) (id : String) (s : State) :
    newEvents s (handleStop now sigtermFails id s)
      = if id = "" then
          [Event.lock Mutex.processesMutex, Event.unlock Mutex.processesMutex,
            Event.redirect "/" 303]
        else
          match s.runningProcesses.lookup id with
          | none =>
            [Event.lock Mutex.processesMutex, Event.unlock Mutex.processesMutex,
              Event.lock Mutex.processesMutex, Event.unlock Mutex.processesMutex,
              Event.redirect "/" 303]
          | some p =>
            [Event.lock Mutex.processesMutex, Event.lock Mutex.logMutex,
              Event.unlock Mutex.logMutex, Event.unlock Mutex.processesMutex,
              Event.signalTerm p.Process.Pid] ++
              (if sigtermFails then [Event.kill p.Process.Pid] else []) ++
              [Event.wait p.Process.Pid, Event.redirect "/" 303] := by
  by_cases hid : id = ""
  · rw [if_pos hid]
    subst hid
    exact newEvents_of_trace (by simp [handleStop])
  · rw [if_neg hid]
    cases hl : s.runningProcesses.lookup id with
    | none =>
      have := (handleStop_missing now sigtermFails id s hl).2.2.2
      rw [if_neg hid] at this
      exact this
    | some p =>
      exact newEvents_of_trace (congrArg State.trace (handleStop_found now sigtermFails id p s hid hl))

/-- The events of `handleIndex`, on every path. -/
theorem handleIndex_newEvents (stat : String → StatResult) (now : Nat → Nat)
    (rank1 rank2 : String → Nat) (path : String) (s : State) :
    newEvents s (handleIndex stat now rank1 rank2 path s)
      = if path = "/" then
          Event.lock Mutex.processesMutex :: logLockPairs (deadInOrder stat rank1 s).length ++
            [Event.unlock Mutex.processesMutex, Event.lock Mutex.logMutex,
              Event.unlock Mutex.logMutex,
              Event.render
                (rangeValues rank2 (handleIndex stat now rank1 rank2 "/" s).runningProcesses)
                (handleIndex stat now rank1 rank2 "/" s).eventLog s.lastError]
        else [Event.notFound] := by
  by_cases hp : path = "/"
  · subst hp
    rw [if_pos rfl]
    exact newEvents_of_trace (handleIndex_trace _ _ _ _ _)
  · rw [if_neg hp]
    exact newEvents_of_trace (by simp [handleIndex, hp])

/-! ## Settled properties: the order of the two locks -/

theorem acquires_log_in_pairs (n : Nat) (rest : List Event) :
    acquiresWhileHolding Mutex.logMutex Mutex.processesMutex [Mutex.processesMutex]
        (logLockPairs n ++ rest)
      = (decide (0 < n) ||
          acquiresWhileHolding Mutex.logMutex Mutex.processesMutex [Mutex.processesMutex]
            rest) := by
  induction n with
  | zero => simp [logLockPairs]
  | succ n ih => simp [logLockPairs, acquiresWhileHolding]

theorem acquires_registry_in_pairs (n : Nat) (rest : List Event) :
    acquiresWhileHolding Mutex.processesMutex Mutex.logMutex [Mutex.processesMutex]
        (logLockPairs n ++ rest)
      = acquiresWhileHolding Mutex.processesMutex Mutex.logMutex [Mutex.processesMutex]
          rest := by
  induction n with
  | zero => simp [logLockPairs]
  | succ n ih => simpa [logLockPairs, acquiresWhileHolding] using ih

/-- C9, refuted as stated: stopping the tracked forward "id-1" takes the log
lock between taking and releasing the registry lock, and so does the sweep of
a status read that finds pid 4242 gone. -/
theorem log_lock_taken_under_registry_lock :
    newEvents startedState (handleStop 9 false "id-1" startedState)
        = [Event.lock Mutex.processesMutex, Event.lock Mutex.logMutex,
            Event.unlock Mutex.logMutex, Event.unlock Mutex.processesMutex,
            Event.signalTerm 4242, Event.wait 4242, Event.redirect "/" 303] ∧
      acquiresWhileHolding Mutex.logMutex Mutex.processesMutex []
          (newEvents startedState (handleStop 9 false "id-1" startedState)) = true ∧
      (newEvents twoStartedState
          (handleIndex sampleStat (fun k => 20 + k) (fun _ => 0) (fun _ => 0) "/"
            twoStartedState)).take 4
        = [Event.lock Mutex.processesMutex, Event.lock Mutex.logMutex,
            Event.unlock Mutex.logMutex, Event.unlock Mutex.processesMutex] ∧
      acquiresWhileHolding Mutex.logMutex Mutex.processesMutex []
          (newEvents twoStartedState
            (handleIndex sampleStat (fun k => 20 + k) (fun _ => 0) (fun _ => 0) "/"
              twoStartedState)) = true := by
  refine ⟨by decide, by decide, by decide, by decide⟩

/-- C9, amended: `handleStart` never takes the log lock while it holds the
registry lock (its append comes after the release); `handleStop` takes the log
lock under the registry lock exactly when it finds the record, and
`handleIndex` exactly when its sweep finds a dead record; and no operation
ever takes the registry lock while it holds the log lock, so the two locks are
only nested in the order registry, then log. -/
theorem lock_nesting_order :
    (∀ (parseIP : String → Bool) (startResult : Except StartError Int) (uuid : String)
        (now : Nat) (method : String) (form : Option FormValues) (s : State),
      acquiresWhileHolding Mutex.logMutex Mutex.processesMutex []
        (newEvents s (handleStart parseIP startResult uuid now method form s)) = false) ∧
      (∀ (now : Nat) (sigtermFails : Bool) (id : String) (s : State),
        acquiresWhileHolding Mutex.logMutex Mutex.processesMutex []
            (newEvents s (handleStop now sigtermFails id s)) = true ↔
          id ≠ "" ∧ (s.runningProcesses.lookup id).isSome = true) ∧
      (∀ (stat : String → StatResult) (now : Nat → Nat) (rank1 rank2 : String → Nat)
          (path : String) (s : State),
        acquiresWhileHolding Mutex.logMutex Mutex.processesMutex []
            (newEvents s (handleIndex stat now rank1 rank2 path s)) = true ↔
          path = "/" ∧ deadInOrder stat rank1 s ≠ []) ∧
      (∀ (a : Action) (s : State),
        acquiresWhileHolding Mutex.processesMutex Mutex.logMutex []
          (newEvents s (step s a)) = false) := by
  have hstart : ∀ (inner outer : Mutex) (parseIP : String → Bool)
      (startResult : Except StartError Int) (uuid : String)
      (now : Nat) (method : String) (form : Option FormValues) (s : State),
      acquiresWhileHolding inner outer []
        (newEvents s (handleStart parseIP startResult uuid now method form s)) = false := by
    intro inner outer parseIP startResult uuid now method form s
    rcases handleStart_newEvents parseIP startResult uuid now method form s with
      h | h | ⟨args, h⟩ | ⟨args, h⟩ <;>
      rw [h] <;> cases inner <;> cases outer <;> simp [acquiresWhileHolding]
  refine ⟨hstart _ _, ?_, ?_, ?_⟩
  · intro now sigtermFails id s
    rw [handleStop_newEvents]
    by_cases hid : id = ""
    · simp [hid, acquiresWhileHolding]
    · rw [if_neg hid]
      cases hl : s.runningProcesses.lookup id with
      | none => simp [hid, acquiresWhileHolding]
      | some p => cases sigtermFails <;> simp [hid, acquiresWhileHolding]
  · intro stat now rank1 rank2 path s
    rw [handleIndex_newEvents]
    by_cases hp : path = "/"
    · rw [if_pos hp]
      rw [List.cons_append]
      simp only [acquiresWhileHolding, List.not_mem_nil, decide_False, Bool.and_false,
        Bool.false_or]
      rw [acquires_log_in_pairs]
      simp [acquiresWhileHolding, hp, List.length_pos]
    · rw [if_neg hp]
      simp [acquiresWhileHolding, hp]
  · intro a s
    cases a with
    | start parseIP startResult uuid now method form => exact hstart _ _ _ _ _ _ _ _ _
    | stop now sigtermFails id =>
      show acquiresWhileHolding _ _ [] (newEvents s (handleStop now sigtermFails id s)) = false
      rw [handleStop_newEvents]
      by_cases hid : id = ""
      · simp [hid, acquiresWhileHolding]
      · rw [if_neg hid]
        cases hl : s.runningProcesses.lookup id with
        | none => simp [acquiresWhileHolding]
        | some p => cases sigtermFails <;> simp [acquiresWhileHolding]
    | index stat now rank1 rank2 path =>
      show acquiresWhileHolding _ _ []
        (newEvents s (handleIndex stat now rank1 rank2 path s)) = false
      rw [handleIndex_newEvents]
      by_cases hp : path = "/"
      · rw [if_pos hp]
        rw [List.cons_append]
        simp only [acquiresWhileHolding, List.not_mem_nil, decide_False, Bool.and_false,
          Bool.false_or]
        rw [acquires_registry_in_pairs]
        simp [acquiresWhileHolding]
      · rw [if_neg hp]
        simp [acquiresWhileHolding]
    | setError errorMsg =>
      show acquiresWhileHolding _ _ [] (newEvents s (setErrorAndRedirect errorMsg s)) = false
      rw [newEvents_of_trace (setErrorAndRedirect_trace errorMsg s)]
      simp [acquiresWhileHolding]

/-! ## Settled properties: the registry key invariant -/

/-- A step only drops entries or adds the record a start just built: every
entry of the new registry is an entry of the old one, or the fresh record
under the identity generated by this start. -/
theorem step_lookup (s : State) (a : Action) (k : String) (p' : SocatProcess)
    (h : (step s a).runningProcesses.lookup k = some p') :
    s.runningProcesses.lookup k = some p' ∨
      ∃ (parseIP : String → Bool) (pid : Int) (uuid : String) (now : Nat) (method : String)
        (f : FormValues),
        a = Action.start parseIP (.ok pid) uuid now method (some f) ∧ k = uuid ∧
          p' = { ID := uuid, BaseIP := f.baseIP, BasePort := f.basePort,
                 RemoteIP := f.remoteIP, RemotePort := f.remotePort, Cmd := socatArgs f,
                 Process := { Pid := pid } } := by
  cases a with
  | start parseIP startResult uuid now method form =>
    simp only [step] at h
    rcases handleStart_cases parseIP startResult uuid now method form s with
      hc | ⟨msg, hc⟩ | ⟨f, e, hc⟩ | ⟨f, pid, hform, hres, hc⟩
    · rw [hc] at h; exact Or.inl h
    · rw [hc] at h; exact Or.inl h
    · rw [hc] at h; exact Or.inl h
    · rw [hc] at h
      simp only [emit_runningProcesses, addLogEntry_runningProcesses] at h
      by_cases hk : k = uuid
      · subst hk
        rw [AList.lookup_insert] at h
        injection h with h
        subst hform hres
        exact Or.inr ⟨parseIP, pid, k, now, method, f, rfl, rfl, h.symm⟩
      · rw [AList.lookup_insert_ne hk] at h
        exact Or.inl h
  | stop now sigtermFails id =>
    simp only [step] at h
    left
    cases hl : s.runningProcesses.lookup id with
    | none =>
      rw [(handleStop_missing now sigtermFails id s hl).1] at h
      exact h
    | some p =>
      by_cases hid : id = ""
      · have : handleStop now sigtermFails id s = setErrorAndRedirect "No process ID specified." s := by
          simp [handleStop, hid]
        rw [this] at h
        exact h
      · rw [handleStop_found now sigtermFails id p s hid hl] at h
        simp only at h
        by_cases hk : k = id
        · subst hk
          rw [AList.lookup_erase] at h
          cases h
        · rw [AList.lookup_erase_ne hk] at h
          exact h
  | index stat now rank1 rank2 path =>
    simp only [step] at h
    left
    by_cases hp : path = "/"
    · subst hp
      rw [handleIndex_runningProcesses, removeIds_lookup] at h
      split at h
      · cases h
      · exact h
    · have : handleIndex stat now rank1 rank2 path s = emit .notFound s := by
        simp [handleIndex, hp]
      rw [this] at h
      exact h
  | setError errorMsg =>
    exact Or.inl h

/-- Every step keeps each key on a record that carries it as `ID`. -/
theorem step_keyedByID (s : State) (a : Action) (h : KeyedByID s.runningProcesses) :
    KeyedByID (step s a).runningProcesses := by
  rw [keyedByID_iff] at h ⊢
  intro k p hk
  rcases step_lookup s a k p hk with hold | ⟨_, _, _, _, _, _, -, hku, hp⟩
  · exact h k p hold
  · rw [hp, hku]

theorem run_keyedByID (s : State) (actions : List Action) (h : KeyedByID s.runningProcesses) :
    KeyedByID (run s actions).runningProcesses := by
  induction actions generalizing s with
  | nil => exact h
  | cons a actions ih => exact ih (step s a) (step_keyedByID s a h)

/-- C10: in every state reached from an empty registry by any sequence of
`handleStart`, `handleStop`, `handleIndex` and `setErrorAndRedirect` steps,
each key maps to a record whose `ID` is that key; a further step leaves every
record that stays in the map as it was (an entry of the new map is an entry of
the old one or the record the step just created); and so the sweep, deleting
by record `ID`, removes exactly the records it found dead. -/
theorem registry_key_invariant (lastError : String) (eventLog : List LogEntry)
    (trace : List Event) (actions : List Action) :
    (∀ (k : String) (p : SocatProcess),
        (run { runningProcesses := ∅, lastError := lastError, eventLog := eventLog,
               trace := trace } actions).runningProcesses.lookup k = some p →
          p.ID = k) ∧
      (∀ (a : Action) (k : String) (p' : SocatProcess),
        (step
            (run { runningProcesses := ∅, lastError := lastError, eventLog := eventLog,
                   trace := trace } actions) a).runningProcesses.lookup k = some p' →
          (run { runningProcesses := ∅, lastError := lastError, eventLog := eventLog,
                 trace := trace } actions).runningProcesses.lookup k = some p' ∨
            ∃ (parseIP : String → Bool) (pid : Int) (uuid : String) (now : Nat)
              (method : String) (f : FormValues),
              a = Action.start parseIP (.ok pid) uuid now method (some f) ∧ k = uuid ∧
                p' = { ID := uuid, BaseIP := f.baseIP, BasePort := f.basePort,
                       RemoteIP := f.remoteIP, RemotePort := f.remotePort,
                       Cmd := socatArgs f, Process := { Pid := pid } }) ∧
      (∀ (stat : String → StatResult) (now : Nat → Nat) (rank1 rank2 : String → Nat)
          (k : String),
        (handleIndex stat now rank1 rank2 "/"
            (run { runningProcesses := ∅, lastError := lastError, eventLog := eventLog,
                   trace := trace } actions)).runningProcesses.lookup k
          = ((run { runningProcesses := ∅, lastError := lastError, eventLog := eventLog,
                    trace := trace } actions).runningProcesses.lookup k).filter
              (fun p => decide (stat (procPath p.Process.Pid) ≠ StatResult.notExist))) := by
  have hinit : KeyedByID
      ({ runningProcesses := ∅, lastError := lastError, eventLog := eventLog,
         trace := trace } : State).runningProcesses := by
    intro e he
    cases he
  have hreach := run_keyedByID _ actions hinit
  refine ⟨(keyedByID_iff _).1 hreach, ?_, ?_⟩
  · intro a k p' h
    exact step_lookup _ a k p' h
  · intro stat now rank1 rank2 k
    exact sweep_lookup stat now rank1 rank2 _ hreach k

end SocatManager
